import Mathlib

/-!
Verification development for the Kinnara binding-inference core.

This file gives a shallow embedding, in Lean 4, of the parts of the crate that
derive GPU resource-binding layouts from a shader module's intermediate
representation (the naga IR re-exported by wgpu), together with the resource
fulfillment protocol ("slots"), and proves properties of the embedded code.

Conventions of the embedding:
- Rust `u32`/`usize` values become `Nat` (none of the verified properties
  depend on wrap-around behaviour).
- naga arena handles become indices into a `List` of types; `get_handle`
  becomes a bounds-checked list lookup returning `Option`.
- `FastHashMap` becomes an association list; `insert` replaces any previous
  entry for the key, and lookups return the most recent insertion, matching
  hash-map semantics.  Iteration over keys is only used through
  order-insensitive folds (`max`).
- Opaque external GPU objects (buffers, texture views, samplers) are
  represented by `Nat` handles; this core never inspects them.
- Recursive descent through `BindingArray` wrapper types is expressed with
  explicit fuel; naga arenas are acyclic (a type only refers to earlier
  handles), so `types.length + 1` units of fuel always suffice.
-/

set_option autoImplicit false

namespace Kinnara

/-- naga `ResourceBinding`: the (group, binding) location of one declared
resource.  Equality and hashing are by value. -/
structure ResourceBinding where
  group : Nat
  binding : Nat
deriving DecidableEq, Repr

/-! ## Hint overlay (src/preprocessing) -/

/-- wgpu `FilterMode`. -/
inductive FilterMode
  | Nearest
  | Linear
deriving DecidableEq, Repr

/-- wgpu `AddressMode`. -/
inductive AddressMode
  | ClampToEdge
  | Repeat
  | MirrorRepeat
  | ClampToBorder
deriving DecidableEq, Repr

/-- wgpu `CompareFunction`. -/
inductive CompareFunction
  | Never
  | Less
  | Equal
  | LessEqual
  | Greater
  | NotEqual
  | GreaterEqual
  | Always
deriving DecidableEq, Repr

/-- The `UniformHint` (src/preprocessing/uniform_hint.rs). -/
structure UniformHint where
  dynamic_offset : Bool
  calculate_min_binding_size : Bool
deriving DecidableEq, Repr

/-- The `UniformHint::default()`. -/
def UniformHint.default : UniformHint :=
  { dynamic_offset := false, calculate_min_binding_size := false }

/-- The struct_patch-derived `UniformHintPatch`: every field optional. -/
structure UniformHintPatch where
  dynamic_offset : Option Bool
  calculate_min_binding_size : Option Bool
deriving DecidableEq, Repr

/-- The `UniformHintPatch::default()`: the empty patch. -/
def UniformHintPatch.default : UniformHintPatch :=
  { dynamic_offset := none, calculate_min_binding_size := none }

/-- struct_patch `Patch::apply` for `UniformHint`: each field the patch
holds a value for overwrites the corresponding field of `self`. -/
def UniformHint.apply (h : UniformHint) (p : UniformHintPatch) : UniformHint :=
  { dynamic_offset := p.dynamic_offset.getD h.dynamic_offset
    calculate_min_binding_size :=
      p.calculate_min_binding_size.getD h.calculate_min_binding_size }

/-- The `SamplerHint` (src/preprocessing/sampler_hint.rs). -/
structure SamplerHint where
  filter : FilterMode
  wrap : AddressMode
  comparison : Option CompareFunction
deriving DecidableEq, Repr

/-- The `SamplerHint::default()`. -/
def SamplerHint.default : SamplerHint :=
  { filter := FilterMode.Nearest
    wrap := AddressMode.ClampToEdge
    comparison := none }

/-- The struct_patch-derived `SamplerHintPatch`. -/
structure SamplerHintPatch where
  filter : Option FilterMode
  wrap : Option AddressMode
  comparison : Option (Option CompareFunction)
deriving DecidableEq, Repr

/-- The `SamplerHintPatch::default()`: the empty patch. -/
def SamplerHintPatch.default : SamplerHintPatch :=
  { filter := none, wrap := none, comparison := none }

/-- struct_patch `Patch::apply` for `SamplerHint`. -/
def SamplerHint.apply (h : SamplerHint) (p : SamplerHintPatch) : SamplerHint :=
  { filter := p.filter.getD h.filter
    wrap := p.wrap.getD h.wrap
    comparison := p.comparison.getD h.comparison }

/-- The `Directives` (src/preprocessing/mod.rs): base patches plus per-location
hint maps.  The `FastHashMap`s are modelled as functions to `Option`. -/
structure Directives where
  uniform_hint_base : UniformHintPatch
  uniform_hints : ResourceBinding → Option UniformHint
  sampler_hint_base : SamplerHintPatch
  sampler_hint : ResourceBinding → Option SamplerHint

/-- The `Directives::default()`. -/
def Directives.default : Directives :=
  { uniform_hint_base := UniformHintPatch.default
    uniform_hints := fun _ => none
    sampler_hint_base := SamplerHintPatch.default
    sampler_hint := fun _ => none }

/-- The `Directives::get_uniform_hint`: take the per-location hint (or the type
default when absent) and `apply` the base patch to it. -/
def Directives.get_uniform_hint (d : Directives) (binding : ResourceBinding) :
    UniformHint :=
  ((d.uniform_hints binding).getD UniformHint.default).apply d.uniform_hint_base

/-- The `Directives::get_sampler_hint`. -/
def Directives.get_sampler_hint (d : Directives) (binding : ResourceBinding) :
    SamplerHint :=
  ((d.sampler_hint binding).getD SamplerHint.default).apply d.sampler_hint_base

/-! ## naga IR model (external shader front-end, consumed read-only) -/

/-- wgpu `ShaderStages` bit set; only the three stage bits are used. -/
structure ShaderStages where
  vertex : Bool
  fragment : Bool
  compute : Bool
deriving DecidableEq, Repr

def ShaderStages.NONE : ShaderStages := ⟨false, false, false⟩

def ShaderStages.VERTEX : ShaderStages := ⟨true, false, false⟩

def ShaderStages.FRAGMENT : ShaderStages := ⟨false, true, false⟩

def ShaderStages.COMPUTE : ShaderStages := ⟨false, false, true⟩

/-- Bitwise or of two stage sets (`|=` in the source). -/
def ShaderStages.union (a b : ShaderStages) : ShaderStages :=
  ⟨a.vertex || b.vertex, a.fragment || b.fragment, a.compute || b.compute⟩

/-- naga `ShaderStage` (per entry point). -/
inductive ShaderStage
  | Vertex
  | Fragment
  | Compute
deriving DecidableEq, Repr

/-- naga `StorageAccess` bitflags; the crate only ever reads the LOAD and
STORE bits (spec §6: "read/write access bits"). -/
structure StorageAccess where
  load : Bool
  store : Bool
deriving DecidableEq, Repr

def StorageAccess.LOAD : StorageAccess := ⟨true, false⟩

def StorageAccess.STORE : StorageAccess := ⟨false, true⟩

/-- bitflags `contains`: every bit of `sub` is present in `a`. -/
def StorageAccess.contains (a sub : StorageAccess) : Bool :=
  (!sub.load || a.load) && (!sub.store || a.store)

/-- naga `ScalarKind`.  The abstract numeric kinds are eliminated by the
front-end before a module reaches this crate (the source marks them
`unreachable.`), so they are omitted from the embedding. -/
inductive ScalarKind
  | Sint
  | Uint
  | Float
  | Bool
deriving DecidableEq, Repr

/-- naga `ImageDimension`. -/
inductive ImageDimension
  | D1
  | D2
  | D3
  | Cube
deriving DecidableEq, Repr

/-- wgpu `TextureViewDimension` (only the variants this crate produces). -/
inductive TextureViewDimension
  | D1
  | D2
  | D3
  | Cube
deriving DecidableEq, Repr

/-- naga `StorageFormat`. -/
inductive StorageFormat
  | R8Unorm | R8Snorm | R8Uint | R8Sint
  | R16Uint | R16Sint | R16Float
  | Rg8Unorm | Rg8Snorm | Rg8Uint | Rg8Sint
  | R32Uint | R32Sint | R32Float
  | Rg16Uint | Rg16Sint | Rg16Float
  | Rgba8Unorm | Rgba8Snorm | Rgba8Uint | Rgba8Sint
  | Rgb10a2Unorm | Rg11b10Float
  | Rg32Uint | Rg32Sint | Rg32Float
  | Rgba16Uint | Rgba16Sint | Rgba16Float
  | Rgba32Uint | Rgba32Sint | Rgba32Float
  | R16Unorm | R16Snorm | Rg16Unorm | Rg16Snorm | Rgba16Unorm | Rgba16Snorm
  | Bgra8Unorm | Rgb10a2Uint
deriving DecidableEq, Repr

/-- wgpu `TextureFormat` (only the variants in the image of `texture_fmt`). -/
inductive TextureFormat
  | R8Unorm | R8Snorm | R8Uint | R8Sint
  | R16Uint | R16Sint | R16Float
  | Rg8Unorm | Rg8Snorm | Rg8Uint | Rg8Sint
  | R32Uint | R32Sint | R32Float
  | Rg16Uint | Rg16Sint | Rg16Float
  | Rgba8Unorm | Rgba8Snorm | Rgba8Uint | Rgba8Sint
  | Rgb10a2Unorm | Rg11b10Float
  | Rg32Uint | Rg32Sint | Rg32Float
  | Rgba16Uint | Rgba16Sint | Rgba16Float
  | Rgba32Uint | Rgba32Sint | Rgba32Float
  | R16Unorm | R16Snorm | Rg16Unorm | Rg16Snorm | Rgba16Unorm | Rgba16Snorm
  | Bgra8Unorm | Rgb10a2Uint
deriving DecidableEq, Repr

/-- naga `ImageClass`. -/
inductive ImageClass
  | Sampled (kind : ScalarKind) (multi : Bool)
  | Depth (multi : Bool)
  | Storage (format : StorageFormat) (access : StorageAccess)
deriving DecidableEq, Repr

/-- naga `ArraySize` of a `BindingArray`: a (non-zero) constant, or dynamic. -/
inductive ArraySize
  | Constant (size : Nat)
  | Dynamic
deriving DecidableEq, Repr

/-- A naga type-arena handle: the index of the type in the arena. -/
abbrev Handle := Nat

/-- The variants of naga `TypeInner` this crate distinguishes; every other
type (scalars, vectors, structs, plain arrays, ...) is only ever reached
through wildcard match arms and is collapsed into `Other`.  (`cls` stands for
the source field `class`, a reserved word in Lean.) -/
inductive TypeInner
  | AccelerationStructure
  | Sampler (comparison : Bool)
  | Image (dim : ImageDimension) (arrayed : Bool) (cls : ImageClass)
  | BindingArray (base : Handle) (size : ArraySize)
  | Other
deriving DecidableEq, Repr

/-- One entry of the naga type arena.  `byte_size` is the IR-reported size of
the type (`TypeInner::size`, the external byte-size query of spec §6). -/
structure NagaType where
  inner : TypeInner
  byte_size : Nat
deriving DecidableEq, Repr

/-- naga `AddressSpace`. -/
inductive AddressSpace
  | Function
  | Private
  | WorkGroup
  | Uniform
  | Storage (access : StorageAccess)
  | Handle
  | PushConstant
deriving DecidableEq, Repr

/-- naga `GlobalVariable` (the fields this crate reads). -/
structure GlobalVariable where
  name : Option String
  space : AddressSpace
  binding : Option ResourceBinding
  ty : Handle
deriving DecidableEq, Repr

/-- naga `EntryPoint` (the fields this crate reads).  `workgroup_size` is the
declared `[u32; 3]`, kept as a list. -/
structure EntryPoint where
  name : String
  stage : ShaderStage
  workgroup_size : List Nat
deriving DecidableEq, Repr

/-- naga `Module` (the parts this crate reads). -/
structure Module where
  types : List NagaType
  global_variables : List GlobalVariable
  entry_points : List EntryPoint
deriving DecidableEq, Repr

/-- The `UniqueArena::get_handle`: resolve a type handle, failing when it is out
of range. -/
def Module.get_handle (m : Module) (ty : Handle) : Option NagaType :=
  m.types[ty]?

/-! ## naga_utils (src/bind_group/naga_utils.rs) -/

/-- The `naga_utils::Error`. -/
inductive NagaUtilsError
  | NoSuchHandle
deriving DecidableEq, Repr

/-- The `naga_utils::type_size`: the minimum size of a type, `None` when the
handle does not resolve or the size is zero (`NonZeroU64::new`). -/
def type_size (m : Module) (ty : Handle) : Option Nat :=
  match m.get_handle ty with
  | none => none
  | some t => if t.byte_size = 0 then none else some t.byte_size

/-- The `naga_utils::type_array_ct`: the element count of a `BindingArray` type
(`1` when the array is unbounded-dynamic), `None` otherwise. -/
def type_array_ct (m : Module) (ty : Handle) : Option Nat :=
  match m.get_handle ty with
  | none => none
  | some t =>
    match t.inner with
    | TypeInner.BindingArray _ size =>
      match size with
      | ArraySize.Constant non_zero => some non_zero
      | ArraySize.Dynamic => some 1
    | _ => none

/-- The `naga_utils::is_image`, with explicit fuel for the recursion through
`BindingArray` wrappers. -/
def is_image_fuel (m : Module) : Nat → Handle → Except NagaUtilsError Bool
  | 0, _ => Except.error NagaUtilsError.NoSuchHandle
  | fuel + 1, ty =>
    match m.get_handle ty with
    | none => Except.error NagaUtilsError.NoSuchHandle
    | some t =>
      match t.inner with
      | TypeInner.Image _ _ _ => Except.ok true
      | TypeInner.BindingArray base _ => is_image_fuel m fuel base
      | _ => Except.ok false

/-- The `naga_utils::is_image`. -/
def is_image (m : Module) (ty : Handle) : Except NagaUtilsError Bool :=
  is_image_fuel m (m.types.length + 1) ty

/-- The `naga_utils::image_dim`. -/
def image_dim (dim : ImageDimension) : TextureViewDimension :=
  match dim with
  | ImageDimension.D1 => TextureViewDimension.D1
  | ImageDimension.D2 => TextureViewDimension.D2
  | ImageDimension.D3 => TextureViewDimension.D3
  | ImageDimension.Cube => TextureViewDimension.Cube

/-- The `naga_utils::texture_fmt`. -/
def texture_fmt (fmt : StorageFormat) : TextureFormat :=
  match fmt with
  | StorageFormat.R8Unorm => TextureFormat.R8Unorm
  | StorageFormat.R8Snorm => TextureFormat.R8Snorm
  | StorageFormat.R8Uint => TextureFormat.R8Uint
  | StorageFormat.R8Sint => TextureFormat.R8Sint
  | StorageFormat.R16Uint => TextureFormat.R16Uint
  | StorageFormat.R16Sint => TextureFormat.R16Sint
  | StorageFormat.R16Float => TextureFormat.R16Float
  | StorageFormat.Rg8Unorm => TextureFormat.Rg8Unorm
  | StorageFormat.Rg8Snorm => TextureFormat.Rg8Snorm
  | StorageFormat.Rg8Uint => TextureFormat.Rg8Uint
  | StorageFormat.Rg8Sint => TextureFormat.Rg8Sint
  | StorageFormat.R32Uint => TextureFormat.R32Uint
  | StorageFormat.R32Sint => TextureFormat.R32Sint
  | StorageFormat.R32Float => TextureFormat.R32Float
  | StorageFormat.Rg16Uint => TextureFormat.Rg16Uint
  | StorageFormat.Rg16Sint => TextureFormat.Rg16Sint
  | StorageFormat.Rg16Float => TextureFormat.Rg16Float
  | StorageFormat.Rgba8Unorm => TextureFormat.Rgba8Unorm
  | StorageFormat.Rgba8Snorm => TextureFormat.Rgba8Snorm
  | StorageFormat.Rgba8Uint => TextureFormat.Rgba8Uint
  | StorageFormat.Rgba8Sint => TextureFormat.Rgba8Sint
  | StorageFormat.Rgb10a2Unorm => TextureFormat.Rgb10a2Unorm
  | StorageFormat.Rg11b10Float => TextureFormat.Rg11b10Float
  | StorageFormat.Rg32Uint => TextureFormat.Rg32Uint
  | StorageFormat.Rg32Sint => TextureFormat.Rg32Sint
  | StorageFormat.Rg32Float => TextureFormat.Rg32Float
  | StorageFormat.Rgba16Uint => TextureFormat.Rgba16Uint
  | StorageFormat.Rgba16Sint => TextureFormat.Rgba16Sint
  | StorageFormat.Rgba16Float => TextureFormat.Rgba16Float
  | StorageFormat.Rgba32Uint => TextureFormat.Rgba32Uint
  | StorageFormat.Rgba32Sint => TextureFormat.Rgba32Sint
  | StorageFormat.Rgba32Float => TextureFormat.Rgba32Float
  | StorageFormat.R16Unorm => TextureFormat.R16Unorm
  | StorageFormat.R16Snorm => TextureFormat.R16Snorm
  | StorageFormat.Rg16Unorm => TextureFormat.Rg16Unorm
  | StorageFormat.Rg16Snorm => TextureFormat.Rg16Snorm
  | StorageFormat.Rgba16Unorm => TextureFormat.Rgba16Unorm
  | StorageFormat.Rgba16Snorm => TextureFormat.Rgba16Snorm
  | StorageFormat.Bgra8Unorm => TextureFormat.Bgra8Unorm
  | StorageFormat.Rgb10a2Uint => TextureFormat.Rgb10a2Uint

/-- The `naga_utils::get_image_information`, with explicit fuel as above. -/
def get_image_information_fuel (m : Module) :
    Nat → Handle → Option (TextureFormat × TextureViewDimension)
  | 0, _ => none
  | fuel + 1, ty =>
    match m.get_handle ty with
    | none => none
    | some t =>
      match t.inner with
      | TypeInner.Image dim _ (ImageClass.Storage format _) =>
        some (texture_fmt format, image_dim dim)
      | TypeInner.BindingArray base _ => get_image_information_fuel m fuel base
      | _ => none

/-- The `naga_utils::get_image_information`. -/
def get_image_information (m : Module) (ty : Handle) :
    Option (TextureFormat × TextureViewDimension) :=
  get_image_information_fuel m (m.types.length + 1) ty

/-- wgpu `StorageTextureAccess`. -/
inductive StorageTextureAccess
  | WriteOnly
  | ReadOnly
  | ReadWrite
deriving DecidableEq, Repr

/-- The `naga_utils::storage_access`: map the read/write bits to a storage
texture access mode. -/
def storage_access (access : StorageAccess) : StorageTextureAccess :=
  let r := access.contains StorageAccess.LOAD
  let w := access.contains StorageAccess.STORE
  match r, w with
  | true, true => StorageTextureAccess.ReadWrite
  | false, true => StorageTextureAccess.WriteOnly
  | _, false => StorageTextureAccess.ReadOnly

/-- wgpu `TextureSampleType` (the variants this crate produces). -/
inductive TextureSampleType
  | Sint
  | Uint
  | Depth
  | Float (filterable : Bool)
deriving DecidableEq, Repr

/-- The `naga_utils::sample_kind`. -/
def sample_kind (kind : ScalarKind) : TextureSampleType :=
  match kind with
  | ScalarKind.Sint => TextureSampleType.Sint
  | ScalarKind.Uint => TextureSampleType.Uint
  | ScalarKind.Float => TextureSampleType.Float true
  | ScalarKind.Bool => TextureSampleType.Uint

/-! ## Binding inference engine (src/bind_group/mod.rs) -/

/-- wgpu `SamplerBindingType`. -/
inductive SamplerBindingType
  | Filtering
  | NonFiltering
  | Comparison
deriving DecidableEq, Repr

/-- wgpu `BufferBindingType`. -/
inductive BufferBindingType
  | Uniform
  | Storage (read_only : Bool)
deriving DecidableEq, Repr

/-- wgpu `BindingType`. -/
inductive BindingType
  | Buffer (ty : BufferBindingType) (has_dynamic_offset : Bool)
      (min_binding_size : Option Nat)
  | Sampler (s : SamplerBindingType)
  | Texture (sample_type : TextureSampleType)
      (view_dimension : TextureViewDimension) (multisampled : Bool)
  | StorageTexture (access : StorageTextureAccess) (format : TextureFormat)
      (view_dimension : TextureViewDimension)
  | AccelerationStructure
deriving DecidableEq, Repr

/-- wgpu `BindGroupLayoutEntry`. -/
structure BindGroupLayoutEntry where
  binding : Nat
  visibility : ShaderStages
  ty : BindingType
  count : Option Nat
deriving DecidableEq, Repr

/-- wgpu `PushConstantRange`: a stage set together with the byte range
`range_start .. range_end` (always `0 .. size` in this crate). -/
structure PushConstantRange where
  stages : ShaderStages
  range_start : Nat
  range_end : Nat
deriving DecidableEq, Repr

/-- The `BindGroupError` (src/bind_group/mod.rs).  `MissingBindGroupEntry`
carries the full (group, binding) location, as constructed at the only
construction site (`TryFrom<BindSlot>` in src/bind_group/requirements.rs);
the single-field enum declaration in mod.rs is a stale earlier variant of
the same module. -/
inductive BindGroupError
  | Stage
  | GlobalType (which : String)
  | UniformAddressMismatch (which : String)
  | MissingTypeHandle
  | UnexpectedType
  | NoEntryPoint
  | TooManyEntryPoints
  | MissingBindGroupEntry (group : Nat) (binding : Nat)
deriving DecidableEq, Repr

/-- The `BindingInfo`. -/
structure BindingInfo where
  entry : BindGroupLayoutEntry
  binding : ResourceBinding
  name : Option String
deriving DecidableEq, Repr

/-- The `EntryMetaData`: position of an entry inside the group lists. -/
structure EntryMetaData where
  set_idx : Nat
  entry_idx : Nat
  name : Option String
deriving DecidableEq, Repr

/-- The `EntryPointMetaData`. -/
structure EntryPointMetaData where
  stage : ShaderStage
  work_groups : Option (List Nat)
deriving DecidableEq, Repr

/-- The `FastHashMap` insertion, on the association-list model: the new pair
replaces any previous entry for the same key. -/
def hashInsert {α β : Type} [DecidableEq α] (m : List (α × β)) (k : α) (v : β) :
    List (α × β) :=
  (k, v) :: m.filter (fun p => decide (p.1 ≠ k))

/-- The `FastHashMap` lookup on the association-list model. -/
def hashLookup {α β : Type} [DecidableEq α] : List (α × β) → α → Option β
  | [], _ => none
  | (k2, v) :: rest, k => if k2 = k then some v else hashLookup rest k

/-- The `infer_uniform_binding_type`. -/
def infer_uniform_binding_type (m : Module) (global : GlobalVariable)
    (uniform_hint : UniformHint) : BindingType :=
  let min_binding_size : Option Nat :=
    if uniform_hint.calculate_min_binding_size then type_size m global.ty
    else none
  let type_actual := m.get_handle global.ty
  let is_acc_struct : Bool :=
    match type_actual.map (fun t => NagaType.inner t) with
    | some TypeInner.AccelerationStructure => true
    | _ => false
  if is_acc_struct then BindingType.AccelerationStructure
  else
    BindingType.Buffer BufferBindingType.Uniform uniform_hint.dynamic_offset
      min_binding_size

/-- The `infer_storage_binding_type`. -/
def infer_storage_binding_type (access : StorageAccess)
    (uniform_hint : UniformHint) (m : Module) (ty : Handle) :
    Except BindGroupError BindingType :=
  match is_image m ty with
  | Except.error _ => Except.error BindGroupError.MissingTypeHandle
  | Except.ok true =>
    let tex_access := storage_access access
    match get_image_information m ty with
    | none => Except.error BindGroupError.MissingTypeHandle
    | some (fmt, view_dimension) =>
      Except.ok (BindingType.StorageTexture tex_access fmt view_dimension)
  | Except.ok false =>
    let min_binding_size : Option Nat :=
      if uniform_hint.calculate_min_binding_size then type_size m ty
      else none
    Except.ok
      (BindingType.Buffer
        (BufferBindingType.Storage (decide (access = StorageAccess.LOAD)))
        uniform_hint.dynamic_offset min_binding_size)

/-- The `infer_handle_binding_type`, with explicit fuel for the recursion
through `BindingArray` wrappers. -/
def infer_handle_binding_type_fuel (directives : Directives)
    (binding : ResourceBinding) (m : Module) :
    Nat → Handle → Except BindGroupError BindingType
  | 0, _ => Except.error BindGroupError.MissingTypeHandle
  | fuel + 1, ty =>
    match m.get_handle ty with
    | none => Except.error BindGroupError.MissingTypeHandle
    | some type_actual =>
      match type_actual.inner with
      | TypeInner.Sampler comparison =>
        let sampler_hint := directives.get_sampler_hint binding
        if comparison then
          Except.ok (BindingType.Sampler SamplerBindingType.Comparison)
        else
          match sampler_hint.filter with
          | FilterMode.Nearest =>
            Except.ok (BindingType.Sampler SamplerBindingType.NonFiltering)
          | FilterMode.Linear =>
            Except.ok (BindingType.Sampler SamplerBindingType.Filtering)
      | TypeInner.Image dim _ cls =>
        match cls with
        | ImageClass.Sampled kind multi =>
          Except.ok (BindingType.Texture (sample_kind kind) (image_dim dim) multi)
        | ImageClass.Depth multi =>
          Except.ok
            (BindingType.Texture TextureSampleType.Depth (image_dim dim) multi)
        | ImageClass.Storage format access =>
          Except.ok
            (BindingType.StorageTexture (storage_access access)
              (texture_fmt format) (image_dim dim))
      | TypeInner.BindingArray base _ =>
        infer_handle_binding_type_fuel directives binding m fuel base
      | _ => Except.error BindGroupError.UnexpectedType

/-- The `infer_handle_binding_type`. -/
def infer_handle_binding_type (directives : Directives)
    (binding : ResourceBinding) (m : Module) (ty : Handle) :
    Except BindGroupError BindingType :=
  infer_handle_binding_type_fuel directives binding m (m.types.length + 1) ty

/-- Rust `u32::next_multiple_of`: the smallest multiple of `rhs` that is
greater than or equal to `n`. -/
def next_multiple_of (n rhs : Nat) : Nat :=
  match n % rhs with
  | 0 => n
  | r => n + (rhs - r)

/-- The `GlobalVar`: the outcome of processing one global variable. -/
inductive GlobalVar
  | PushConstant (pc : PushConstantRange)
  | Uniform (info : BindingInfo)
deriving DecidableEq, Repr

/-- The `push_constant_ranges`: resolve the declared type, round its byte size
up to the next multiple of 4, and record the range `[0, size)` tagged with
the stage set. -/
def push_constant_ranges (stages : ShaderStages) (m : Module) (ty : Handle) :
    Except BindGroupError GlobalVar :=
  match m.get_handle ty with
  | none => Except.error BindGroupError.MissingTypeHandle
  | some type_actual =>
    let size := next_multiple_of type_actual.byte_size 4
    Except.ok
      (GlobalVar.PushConstant
        { stages := stages, range_start := 0, range_end := size })

/-- The `GlobalVar::new_uniform`. -/
def GlobalVar.new_uniform (ty : BindingType) (global : GlobalVariable)
    (m : Module) (visibility : ShaderStages) : Option GlobalVar :=
  let count := type_array_ct m global.ty
  match global.binding with
  | some binding =>
    some
      (GlobalVar.Uniform
        { entry :=
            { binding := binding.binding
              visibility := visibility
              ty := ty
              count := count }
          binding := binding
          name := global.name })
  | none => none

/-- The `GlobalVar::process_global_var`: route a global variable by its address
space. -/
def GlobalVar.process_global_var (directives : Directives) (m : Module)
    (global : GlobalVariable) (visibility : ShaderStages) :
    Except BindGroupError (Option GlobalVar) :=
  match global.space with
  | AddressSpace.Function => Except.ok none
  | AddressSpace.Private => Except.ok none
  | AddressSpace.WorkGroup => Except.ok none
  | AddressSpace.Uniform =>
    match global.binding with
    | none => Except.ok none
    | some binding =>
      let uniform_hint := directives.get_uniform_hint binding
      let b := infer_uniform_binding_type m global uniform_hint
      Except.ok (GlobalVar.new_uniform b global m visibility)
  | AddressSpace.Storage access =>
    match global.binding with
    | none => Except.ok none
    | some binding =>
      let uniform_hint := directives.get_uniform_hint binding
      match infer_storage_binding_type access uniform_hint m global.ty with
      | Except.error e => Except.error e
      | Except.ok b => Except.ok (GlobalVar.new_uniform b global m visibility)
  | AddressSpace.Handle =>
    match global.binding with
    | none => Except.ok none
    | some binding =>
      match infer_handle_binding_type directives binding m global.ty with
      | Except.error e => Except.error e
      | Except.ok b => Except.ok (GlobalVar.new_uniform b global m visibility)
  | AddressSpace.PushConstant =>
    match push_constant_ranges visibility m global.ty with
    | Except.error e => Except.error e
    | Except.ok gv => Except.ok (some gv)

/-- The growth step of `update_entry_map`: `bindings.extend(vec![vec![];
needed_len - bindings.len()])` when the vector is shorter than
`needed_len`, keeping the group vector dense. -/
def grow_bindings (bindings : List (List BindGroupLayoutEntry))
    (needed_len : Nat) : List (List BindGroupLayoutEntry) :=
  if bindings.length < needed_len then
    bindings ++ List.replicate (needed_len - bindings.length) []
  else bindings

/-- The `update_entry_map`: grow the group vector so the entry's group exists,
push the entry onto its group list, and register its position in the lookup
map. -/
def update_entry_map (info : BindingInfo)
    (bindings : List (List BindGroupLayoutEntry))
    (map : List (ResourceBinding × EntryMetaData)) :
    List (List BindGroupLayoutEntry) × List (ResourceBinding × EntryMetaData) :=
  let bindings := grow_bindings bindings (info.binding.group + 1)
  let row := (bindings.getD info.binding.group []) ++ [info.entry]
  let bindings := bindings.set info.binding.group row
  let entry_idx := row.length - 1
  let map :=
    hashInsert map info.binding
      { set_idx := info.binding.group, entry_idx := entry_idx
        name := info.name }
  (bindings, map)

/-- The aggregate visibility mask: the or of all entry-point stages
(`visibility |= ...` in `BindGroups::new`). -/
def aggregate_visibility (m : Module) : ShaderStages :=
  m.entry_points.foldl
    (fun v ep =>
      match ep.stage with
      | ShaderStage.Vertex => v.union ShaderStages.VERTEX
      | ShaderStage.Fragment => v.union ShaderStages.FRAGMENT
      | ShaderStage.Compute => v.union ShaderStages.COMPUTE)
    ShaderStages.NONE

/-- The entry-point metadata map built by `BindGroups::new`: workgroup size
is dropped when any axis is declared 0. -/
def collect_entry_points (m : Module) : List (String × EntryPointMetaData) :=
  m.entry_points.foldl
    (fun acc ep =>
      let work_groups :=
        if ep.workgroup_size.contains 0 then none else some ep.workgroup_size
      hashInsert acc ep.name { stage := ep.stage, work_groups := work_groups })
    []

/-- Intermediate state of the global-variable loop in `BindGroups::new`. -/
structure BuildState where
  bindings : List (List BindGroupLayoutEntry)
  entry_map : List (ResourceBinding × EntryMetaData)
  push_constant_range : Option PushConstantRange

/-- The global-variable loop of `BindGroups::new`. -/
def process_globals (directives : Directives) (m : Module)
    (visibility : ShaderStages) :
    List GlobalVariable → BuildState → Except BindGroupError BuildState
  | [], st => Except.ok st
  | g :: rest, st =>
    match GlobalVar.process_global_var directives m g visibility with
    | Except.error e => Except.error e
    | Except.ok none => process_globals directives m visibility rest st
    | Except.ok (some (GlobalVar.PushConstant pc)) =>
      process_globals directives m visibility rest
        { st with push_constant_range := some pc }
    | Except.ok (some (GlobalVar.Uniform info)) =>
      let (bindings, entry_map) := update_entry_map info st.bindings st.entry_map
      process_globals directives m visibility rest
        { st with bindings := bindings, entry_map := entry_map }

/-- The `BindGroups`: the binding layout table. -/
structure BindGroups where
  entry_map : List (ResourceBinding × EntryMetaData)
  entry_points : List (String × EntryPointMetaData)
  bindings : List (List BindGroupLayoutEntry)
  push_constant_range : Option PushConstantRange
deriving DecidableEq, Repr

/-- The `BindGroups::new`: fail on a module without entry points, aggregate the
stage visibility, then process every global variable. -/
def BindGroups.new (m : Module) (directives : Directives) :
    Except BindGroupError BindGroups :=
  if m.entry_points.isEmpty then Except.error BindGroupError.NoEntryPoint
  else
    match process_globals directives m (aggregate_visibility m)
        m.global_variables ⟨[], [], none⟩ with
    | Except.error e => Except.error e
    | Except.ok st =>
      Except.ok
        { entry_map := st.entry_map
          entry_points := collect_entry_points m
          bindings := st.bindings
          push_constant_range := st.push_constant_range }

/-- The `BindGroups::get_bind_group_layout_entries`: the entries of one group,
the empty list when the group index is past the end of the group vector. -/
def BindGroups.get_bind_group_layout_entries (bg : BindGroups) (set : Nat) :
    List BindGroupLayoutEntry :=
  (bg.bindings[set]?).getD []

/-- The `BindGroups::bind_group_entries_count`. -/
def BindGroups.bind_group_entries_count (bg : BindGroups) (set : Nat) : Nat :=
  ((bg.bindings[set]?).map List.length).getD 0

/-- The `BindGroups::bind_group_count`: `max_by_key` of the group over the lookup
map's keys, `0` for the empty map; on `Nat` this is the fold of `max` with
initial value `0`. -/
def BindGroups.bind_group_count (bg : BindGroups) : Nat :=
  (bg.entry_map.map (fun p => p.1.group)).foldl Nat.max 0

/-- The `BindGroups::work_group_size`. -/
def BindGroups.work_group_size (bg : BindGroups) (entry_point : String) :
    Option (List Nat) :=
  match hashLookup bg.entry_points entry_point with
  | none => none
  | some ep => ep.work_groups

/-- The `BindGroups::get_bind_group_layout_entry`: look the location up in the
map, then index the group lists at the stored position.  The source indexes
with `[]` (a panic when out of bounds); the embedding returns `none` there,
and the build invariant proves that position is always present. -/
def BindGroups.get_bind_group_layout_entry (bg : BindGroups) (set : Nat)
    (binding : Nat) : Option BindGroupLayoutEntry :=
  let b : ResourceBinding := { group := set, binding := binding }
  match hashLookup bg.entry_map b with
  | none => none
  | some meta_data =>
    (bg.bindings[meta_data.set_idx]?).bind fun row => row[meta_data.entry_idx]?

/-! ## Resource fulfillment protocol (src/bind_group/requirements.rs)

External GPU resources (buffers, texture views, samplers, and borrowed
arrays of them) are opaque to this crate; the embedding represents each by a
`Nat` handle.  A slot's `RefCell` single-assignment cell is an `Option`:
slots are created with an empty cell, the caller callback may store a value,
and `take` consumes it. -/

/-- The eight variants of `BindSlot`, by resource kind and single/array
form; the array forms carry the declared element count. -/
inductive BindSlotKind
  | StorageBuffer
  | UniformBuffer
  | StorageBufferArray (entry_count : Nat)
  | UniformBufferArray (entry_count : Nat)
  | Texture
  | TextureArray (entry_count : Nat)
  | Sampler
  | SamplerArray (entry_count : Nat)
deriving DecidableEq, Repr

/-- The `BindSlot`: variant tag, (group, binding) location, and the
single-assignment cell. -/
structure BindSlot where
  kind : BindSlotKind
  loc : Nat × Nat
  cell : Option Nat
deriving DecidableEq, Repr

/-- wgpu `BindingResource` (the variants this crate produces). -/
inductive BindingResource
  | Buffer (v : Nat)
  | TextureView (v : Nat)
  | Sampler (v : Nat)
  | BufferArray (v : Nat)
  | TextureViewArray (v : Nat)
  | SamplerArray (v : Nat)
deriving DecidableEq, Repr

/-- The `create_bind_slot.` helper for uniform buffers: array form when a
count is declared, single form otherwise; the cell starts empty. -/
def BindSlot.uniform_buf (set binding : Nat) (ct : Option Nat) : BindSlot :=
  match ct with
  | some ct =>
    { kind := BindSlotKind.UniformBufferArray ct, loc := (set, binding)
      cell := none }
  | none =>
    { kind := BindSlotKind.UniformBuffer, loc := (set, binding), cell := none }

/-- The `create_bind_slot.` helper for storage buffers. -/
def BindSlot.storage_buf (set binding : Nat) (ct : Option Nat) : BindSlot :=
  match ct with
  | some ct =>
    { kind := BindSlotKind.StorageBufferArray ct, loc := (set, binding)
      cell := none }
  | none =>
    { kind := BindSlotKind.StorageBuffer, loc := (set, binding), cell := none }

/-- The `create_bind_slot.` helper for samplers. -/
def BindSlot.sampler (set binding : Nat) (ct : Option Nat) : BindSlot :=
  match ct with
  | some ct =>
    { kind := BindSlotKind.SamplerArray ct, loc := (set, binding)
      cell := none }
  | none =>
    { kind := BindSlotKind.Sampler, loc := (set, binding), cell := none }

/-- The `create_bind_slot.` helper for textures. -/
def BindSlot.texture (set binding : Nat) (ct : Option Nat) : BindSlot :=
  match ct with
  | some ct =>
    { kind := BindSlotKind.TextureArray ct, loc := (set, binding)
      cell := none }
  | none =>
    { kind := BindSlotKind.Texture, loc := (set, binding), cell := none }

/-- The `BindSlot::from_entry`.  The `AccelerationStructure` arm is a `todo.`
panic in the source; the embedding returns `none` there (no slot is ever
produced). -/
def BindSlot.from_entry (set : Nat) (entry : BindGroupLayoutEntry) :
    Option BindSlot :=
  match entry.ty with
  | BindingType.Buffer BufferBindingType.Uniform _ _ =>
    some (BindSlot.uniform_buf set entry.binding entry.count)
  | BindingType.Buffer (BufferBindingType.Storage _) _ _ =>
    some (BindSlot.storage_buf set entry.binding entry.count)
  | BindingType.Sampler _ => some (BindSlot.sampler set entry.binding entry.count)
  | BindingType.Texture _ _ _ =>
    some (BindSlot.texture set entry.binding entry.count)
  | BindingType.StorageTexture _ _ _ =>
    some (BindSlot.texture set entry.binding entry.count)
  | BindingType.AccelerationStructure => none

/-- The `get_reqt.` helper body of the `TryFrom<BindSlot>` impl: take the
cell; an empty cell yields `MissingBindGroupEntry` at the slot's (group,
binding) location. -/
def get_reqt (cell : Option Nat) (loc : Nat × Nat)
    (constructor : Nat → BindingResource) : Except BindGroupError BindingResource :=
  match cell with
  | some s => Except.ok (constructor s)
  | none => Except.error (BindGroupError.MissingBindGroupEntry loc.1 loc.2)

/-- The `TryFrom<BindSlot> for BindingResource`. -/
def BindSlot.try_into_resource (value : BindSlot) :
    Except BindGroupError BindingResource :=
  match value.kind with
  | BindSlotKind.StorageBuffer => get_reqt value.cell value.loc BindingResource.Buffer
  | BindSlotKind.UniformBuffer => get_reqt value.cell value.loc BindingResource.Buffer
  | BindSlotKind.Texture => get_reqt value.cell value.loc BindingResource.TextureView
  | BindSlotKind.Sampler => get_reqt value.cell value.loc BindingResource.Sampler
  | BindSlotKind.StorageBufferArray _ =>
    get_reqt value.cell value.loc BindingResource.BufferArray
  | BindSlotKind.UniformBufferArray _ =>
    get_reqt value.cell value.loc BindingResource.BufferArray
  | BindSlotKind.TextureArray _ =>
    get_reqt value.cell value.loc BindingResource.TextureViewArray
  | BindSlotKind.SamplerArray _ =>
    get_reqt value.cell value.loc BindingResource.SamplerArray

/-- wgpu `BindGroupEntry`: one resolved entry of a bind-group descriptor. -/
structure BindGroupEntry where
  binding : Nat
  resource : BindingResource
deriving DecidableEq, Repr

/-- The entry loop of `ComputeReflector::create_bind_group` (src/lib.rs):
hand each entry's fresh slot to the caller callback, then convert the slot;
the `collect::<Option<Vec<_>>>()` over the lazy iterator stops at the first
conversion failure (`.ok()?`), so later entries are not visited.

The caller's `FnMut(&BindSlot)` callback is modelled with its captured
state `σ` made explicit: handed the current state and the (empty) slot, it
returns the updated state and what it stored into the slot's cell (`none` =
left unfilled).  The function returns the callback's final state together
with the collected descriptor entries. -/
def create_bind_group_entries {σ : Type} (func : σ → BindSlot → σ × Option Nat)
    (set : Nat) : σ → List BindGroupLayoutEntry → σ × Option (List BindGroupEntry)
  | s, [] => (s, some [])
  | s, entry :: rest =>
    match BindSlot.from_entry set entry with
    | none => (s, none)
    | some req =>
      let (s1, v) := func s req
      match BindSlot.try_into_resource { req with cell := v } with
      | Except.error _ => (s1, none)
      | Except.ok resource =>
        match create_bind_group_entries func set s1 rest with
        | (s2, none) => (s2, none)
        | (s2, some out) =>
          (s2, some ({ binding := entry.binding, resource := resource } :: out))

/-- The `ComputeReflector::create_bind_group` for one group (the layout and
device calls are external): run the entry loop over the group's entries. -/
def create_bind_group {σ : Type} (bg : BindGroups) (set : Nat)
    (func : σ → BindSlot → σ × Option Nat) (s : σ) :
    σ × Option (List BindGroupEntry) :=
  create_bind_group_entries func set s (bg.get_bind_group_layout_entries set)

/-- The callback state after being handed the slots of the given entries in
order (with every slot converted successfully); used to state exactly where
bind-group construction stops. -/
def run_fill {σ : Type} (func : σ → BindSlot → σ × Option Nat) (set : Nat) :
    σ → List BindGroupLayoutEntry → σ
  | s, [] => s
  | s, entry :: rest =>
    match BindSlot.from_entry set entry with
    | none => s
    | some req => run_fill func set (func s req).1 rest

/-! ## Pass construction (src/lib.rs) -/

/-- The `Error` (src/lib.rs); only the variants the embedded operations
produce.  `PassConstruction` aggregates every unresolved dynamic-offset
location and every unresolved push-constant stage set. -/
inductive Error
  | BindGroup (e : BindGroupError)
  | PassConstruction (missing_offsets : List (Nat × Nat))
      (missing_push_constant_stages : List ShaderStages)
deriving DecidableEq, Repr

/-- Modelled from the spec: `has_dynamic_offset` on a binding type.  The
helper `ent.ty.has_dynamic_offset()` called by `create_pass` is code of
this crate not present under the provided sources; per the spec, a pass
slot is created exactly for the entries "whose hint requested a dynamic
offset", i.e. buffer bindings whose dynamic-offset flag is set. -/
def BindingType.has_dynamic_offset : BindingType → Bool
  | BindingType.Buffer _ d _ => d
  | _ => false

/-- The `ComputeReflector::push_constant_range` (src/lib.rs): the reflected
push-constant ranges as an optional slice; the canonical single-merged-range
table yields a one-element slice. -/
def BindGroups.push_constant_range_slice (bg : BindGroups) :
    Option (List PushConstantRange) :=
  bg.push_constant_range.map (fun pc => [pc])

/-- The caller-supplied `FnMut(&PassSlot)` callback of pass construction,
with its captured state `σ` explicit.  A Rust callback matches on the slot
variant, so it is equivalent to one handler per variant: each is handed the
state and the slot's data and returns the updated state and what it stored
into the slot's cell (`none` = left unfilled). -/
structure PassFill (σ : Type) where
  on_push_const : σ → ShaderStages → Nat × Nat → σ × Option (List Nat)
  on_offset : σ → Nat × Nat → σ × Option Nat

/-- The push-constant loop of `create_pass`: one `PassSlot` per reflected
range; a filled buffer is collected with the range start
(`push_const_slice`), an unfilled one records the range's stage set. -/
def collect_push_constants {σ : Type} (fill : PassFill σ) :
    σ → List PushConstantRange → σ × (List (Nat × List Nat) × List ShaderStages)
  | s, [] => (s, ([], []))
  | s, range :: rest =>
    let (s1, v) := fill.on_push_const s range.stages
      (range.range_start, range.range_end)
    let (s2, out) := collect_push_constants fill s1 rest
    match v with
    | some pc => (s2, ((range.range_start, pc) :: out.1, out.2))
    | none => (s2, (out.1, range.stages :: out.2))

/-- The inner dynamic-offset loop of `create_pass` over one group's
entries: one `PassSlot` per entry whose binding type carries a dynamic
offset; an unfilled one records its (group, binding) location. -/
def collect_offsets_entries {σ : Type} (fill : PassFill σ) (set : Nat) :
    σ → List BindGroupLayoutEntry → σ × (List Nat × List (Nat × Nat))
  | s, [] => (s, ([], []))
  | s, ent :: rest =>
    if BindingType.has_dynamic_offset ent.ty then
      let (s1, v) := fill.on_offset s (set, ent.binding)
      let (s2, out) := collect_offsets_entries fill set s1 rest
      match v with
      | some offset => (s2, (offset :: out.1, out.2))
      | none => (s2, (out.1, (set, ent.binding) :: out.2))
    else collect_offsets_entries fill set s rest

/-- The outer dynamic-offset loop of `create_pass` over the bound groups:
collects each group's offset list and accumulates every unresolved location
across all groups. -/
def collect_offsets_groups {σ : Type} (fill : PassFill σ) (refl : BindGroups) :
    σ → List Nat → σ × (List (Nat × List Nat) × List (Nat × Nat))
  | s, [] => (s, ([], []))
  | s, set :: sets =>
    let (s1, out1) := collect_offsets_entries fill set s
      (refl.get_bind_group_layout_entries set)
    let (s2, out2) := collect_offsets_groups fill refl s1 sets
    (s2, ((set, out1.1) :: out2.1, out1.2 ++ out2.2))

/-- The `BoundComputePipeline::create_pass` (the GPU encoder calls are
external).  `num_bind_groups` is the length of the bound `Vec` of GPU bind
groups (opaque objects).  All push-constant slots are visited first, then
all dynamic-offset slots across all groups; only then, if anything is
unresolved, the single aggregate `PassConstruction` error is returned,
else the pass content (push-constant writes, per-group offset lists). -/
def create_pass {σ : Type} (refl : BindGroups) (num_bind_groups : Nat)
    (fill : PassFill σ) (s : σ) :
    σ × Except Error (List (Nat × List Nat) × List (Nat × List Nat)) :=
  let pc_step :=
    match BindGroups.push_constant_range_slice refl with
    | none => (s, ([], []))
    | some reflected_ranges => collect_push_constants fill s reflected_ranges
  let s1 := pc_step.1
  let pc_ranges := pc_step.2.1
  let pc_range_errors := pc_step.2.2
  let off_step := collect_offsets_groups fill refl s1 (List.range num_bind_groups)
  let s2 := off_step.1
  let bg_and_offsets := off_step.2.1
  let errors := off_step.2.2
  if !errors.isEmpty || !pc_range_errors.isEmpty then
    (s2, Except.error (Error.PassConstruction errors pc_range_errors))
  else (s2, Except.ok (pc_ranges, bg_and_offsets))

/-- A stateless pass callback: it fills (or skips) each slot from the
slot's own data alone, with no captured mutable state. -/
def statelessFill (pcFill : ShaderStages → Nat × Nat → Option (List Nat))
    (offFill : Nat × Nat → Option Nat) : PassFill Unit :=
  { on_push_const := fun s visibility range => (s, pcFill visibility range)
    on_offset := fun s loc => (s, offFill loc) }

/-- Declarative description of the dynamic-offset locations a stateless
callback leaves unfilled, in visit order: for each bound group, each entry
whose binding type carries a dynamic offset and whose fill is `none`. -/
def unresolved_offsets (refl : BindGroups) (n : Nat)
    (offFill : Nat × Nat → Option Nat) : List (Nat × Nat) :=
  (List.range n).bind (fun set =>
    ((refl.get_bind_group_layout_entries set).filter
      (fun e => BindingType.has_dynamic_offset e.ty)).filterMap
      (fun e =>
        match offFill (set, e.binding) with
        | none => some (set, e.binding)
        | some _ => none))

/-- Declarative description of the stage sets of the push-constant ranges a
stateless callback leaves unfilled, in visit order. -/
def unresolved_push_constants (refl : BindGroups)
    (pcFill : ShaderStages → Nat × Nat → Option (List Nat)) :
    List ShaderStages :=
  ((refl.push_constant_range_slice).getD []).filterMap
    (fun r =>
      match pcFill r.stages (r.range_start, r.range_end) with
      | none => some r.stages
      | some _ => none)

/-! ## Invariant predicates used in the statements below -/

/-- Well-formedness of the binding table's lookup map against its group
lists: every registered location stores its own group as `set_idx`, points
inside the group vector, and its `entry_idx` lies inside that group's entry
list; moreover the group vector is empty or its length is witnessed by a
registered location of maximal group (density). -/
def table_inv (bindings : List (List BindGroupLayoutEntry))
    (map : List (ResourceBinding × EntryMetaData)) : Prop :=
  (∀ p ∈ map,
      p.2.set_idx = p.1.group ∧
      p.1.group < bindings.length ∧
      p.2.entry_idx < (bindings.getD p.1.group []).length) ∧
  (bindings = [] ∨ ∃ p ∈ map, p.1.group + 1 = bindings.length)

/-! ## Concrete inputs used by witnesses and counterexamples -/

/-- A directive set whose process-wide base patch sets `dynamic_offset`,
with no per-location overrides at all. -/
def baseOnlyDirectives : Directives :=
  { uniform_hint_base :=
      { dynamic_offset := some true, calculate_min_binding_size := none }
    uniform_hints := fun _ => none
    sampler_hint_base := SamplerHintPatch.default
    sampler_hint := fun _ => none }

/-- A directive set that overrides the sampler hint at (0,0) to a linear
filter with a comparison function. -/
def linearSamplerDirectives : Directives :=
  { uniform_hint_base := UniformHintPatch.default
    uniform_hints := fun _ => none
    sampler_hint_base := SamplerHintPatch.default
    sampler_hint := fun loc =>
      if loc = ⟨0, 0⟩ then
        some
          { filter := FilterMode.Linear, wrap := AddressMode.Repeat
            comparison := some CompareFunction.Less }
      else none }

/-- A module with two uniform buffers in groups 0 and 1 plus a push-constant
global of byte size 8, under a single compute entry point. -/
def exModule : Module :=
  { types := [⟨TypeInner.Other, 8⟩, ⟨TypeInner.Sampler false, 0⟩]
    global_variables :=
      [ { name := some "a", space := AddressSpace.Uniform
          binding := some ⟨0, 0⟩, ty := 0 }
      , { name := some "b", space := AddressSpace.Uniform
          binding := some ⟨1, 0⟩, ty := 0 }
      , { name := some "pc", space := AddressSpace.PushConstant
          binding := none, ty := 0 } ]
    entry_points := [⟨"main", ShaderStage.Compute, [1, 1, 1]⟩] }

/-- The binding table `BindGroups::new` produces for `exModule` under
default directives. -/
def exBG : BindGroups :=
  { entry_map :=
      [ (⟨1, 0⟩, { set_idx := 1, entry_idx := 0, name := some "b" })
      , (⟨0, 0⟩, { set_idx := 0, entry_idx := 0, name := some "a" }) ]
    entry_points :=
      [("main", { stage := ShaderStage.Compute, work_groups := some [1, 1, 1] })]
    bindings :=
      [ [ { binding := 0, visibility := ShaderStages.COMPUTE
            ty := BindingType.Buffer BufferBindingType.Uniform false none
            count := none } ]
      , [ { binding := 0, visibility := ShaderStages.COMPUTE
            ty := BindingType.Buffer BufferBindingType.Uniform false none
            count := none } ] ]
    push_constant_range :=
      some { stages := ShaderStages.COMPUTE, range_start := 0, range_end := 8 } }

/-- A uniform-buffer layout entry at the given binding index. -/
def exEntry (b : Nat) : BindGroupLayoutEntry :=
  { binding := b, visibility := ShaderStages.COMPUTE
    ty := BindingType.Buffer BufferBindingType.Uniform false none
    count := none }

/-- A uniform-buffer layout entry with a dynamic offset at the given
binding index. -/
def exDynEntry (b : Nat) : BindGroupLayoutEntry :=
  { binding := b, visibility := ShaderStages.COMPUTE
    ty := BindingType.Buffer BufferBindingType.Uniform true none
    count := none }

/-- A binding table with two dynamic-offset buffers in group 0 and one
push-constant range. -/
def exPassBG : BindGroups :=
  { entry_map :=
      [ (⟨0, 0⟩, { set_idx := 0, entry_idx := 0, name := none })
      , (⟨0, 1⟩, { set_idx := 0, entry_idx := 1, name := none }) ]
    entry_points := []
    bindings := [[exDynEntry 0, exDynEntry 1]]
    push_constant_range :=
      some { stages := ShaderStages.COMPUTE, range_start := 0, range_end := 8 } }

theorem exBG_is_built :
    BindGroups.new exModule Directives.default = Except.ok exBG := by
  rfl

/-! ## C1: hint lookup -/

/-- C1, counterexample.  The claim states that when no location-specific
override exists, `get_uniform_hint` returns the documented default
(`dynamic_offset = false`).  With a base patch that sets `dynamic_offset`,
the code instead applies the base patch over the per-location default, so
the lookup at an unhinted location returns `dynamic_offset = true`: the
base patch wins, the opposite patching direction from the claim. -/
theorem C1_hint_lookup_counterexample :
    baseOnlyDirectives.uniform_hints ⟨0, 0⟩ = none ∧
    baseOnlyDirectives.get_uniform_hint ⟨0, 0⟩ ≠ UniformHint.default := by
  exact ⟨rfl, by decide⟩

/-- C1, amended: `get_uniform_hint` and `get_sampler_hint` return the
process-wide base patch applied over the location-specific hint (itself the
documented default when absent): a field set in the base patch overrides
the location-specific value, and only when the base patch sets no field and
no location-specific override exists do they return the documented defaults
(`dynamic_offset=false`, `calculate_min_binding_size=false`,
`filter=Nearest`, `wrap=ClampToEdge`, `comparison=None`). -/
theorem C1_hint_lookup_amended (d : Directives) (loc : ResourceBinding) :
    ((d.get_uniform_hint loc).dynamic_offset
        = d.uniform_hint_base.dynamic_offset.getD
            (((d.uniform_hints loc).getD UniformHint.default).dynamic_offset)) ∧
    ((d.get_uniform_hint loc).calculate_min_binding_size
        = d.uniform_hint_base.calculate_min_binding_size.getD
            (((d.uniform_hints loc).getD
                UniformHint.default).calculate_min_binding_size)) ∧
    ((d.get_sampler_hint loc).filter
        = d.sampler_hint_base.filter.getD
            (((d.sampler_hint loc).getD SamplerHint.default).filter)) ∧
    ((d.get_sampler_hint loc).wrap
        = d.sampler_hint_base.wrap.getD
            (((d.sampler_hint loc).getD SamplerHint.default).wrap)) ∧
    ((d.get_sampler_hint loc).comparison
        = d.sampler_hint_base.comparison.getD
            (((d.sampler_hint loc).getD SamplerHint.default).comparison)) ∧
    (d.uniform_hint_base = UniformHintPatch.default →
      d.uniform_hints loc = none →
      d.get_uniform_hint loc = UniformHint.default) ∧
    (d.sampler_hint_base = SamplerHintPatch.default →
      d.sampler_hint loc = none →
      d.get_sampler_hint loc = SamplerHint.default) := by
  refine ⟨rfl, rfl, rfl, rfl, rfl, ?_, ?_⟩
  · intro hbase habsent
    simp [Directives.get_uniform_hint, UniformHint.apply, hbase, habsent,
      UniformHintPatch.default]
  · intro hbase habsent
    simp [Directives.get_sampler_hint, SamplerHint.apply, hbase, habsent,
      SamplerHintPatch.default]

/-- C1 amended, witness at a concrete directive set and location. -/
theorem C1_hint_lookup_amended_witness :
    ((baseOnlyDirectives.get_uniform_hint ⟨0, 0⟩).dynamic_offset
        = baseOnlyDirectives.uniform_hint_base.dynamic_offset.getD
            (((baseOnlyDirectives.uniform_hints ⟨0, 0⟩).getD
                UniformHint.default).dynamic_offset)) ∧
    (Directives.default.uniform_hint_base = UniformHintPatch.default →
      Directives.default.uniform_hints ⟨0, 0⟩ = none →
      Directives.default.get_uniform_hint ⟨0, 0⟩ = UniformHint.default) :=
  ⟨(C1_hint_lookup_amended baseOnlyDirectives ⟨0, 0⟩).1,
    (C1_hint_lookup_amended Directives.default ⟨0, 0⟩).2.2.2.2.2.1⟩

/-! ## C5: sampler classification -/

/-- C5: a Handle-space global whose resolved type is a sampler classifies
as `Comparison` whenever `comparison = true`, regardless of the sampler
hint; with `comparison = false` it classifies as `NonFiltering` when the
hint's filter mode is `Nearest` and `Filtering` when it is `Linear`. -/
theorem C5_sampler_classification (dirs : Directives)
    (binding : ResourceBinding) (m : Module) (ty : Handle) (t : NagaType)
    (comparison : Bool) (hget : m.get_handle ty = some t)
    (hinner : t.inner = TypeInner.Sampler comparison) :
    infer_handle_binding_type dirs binding m ty =
      Except.ok
        (BindingType.Sampler
          (if comparison then SamplerBindingType.Comparison
           else
             match (dirs.get_sampler_hint binding).filter with
             | FilterMode.Nearest => SamplerBindingType.NonFiltering
             | FilterMode.Linear => SamplerBindingType.Filtering)) := by
  unfold infer_handle_binding_type infer_handle_binding_type_fuel
  rw [hget]
  simp only [hinner]
  cases comparison with
  | true => simp
  | false =>
    simp only [if_neg Bool.false_ne_true, Bool.false_eq_true, if_false]
    cases hf : (dirs.get_sampler_hint binding).filter <;> simp

/-- C5, witness: a comparison sampler at (0,0) classifies as `Comparison`
even under a directive set that overrides the (0,0) sampler hint to a
linear filter with a comparison function. -/
theorem C5_sampler_classification_witness :
    infer_handle_binding_type linearSamplerDirectives ⟨0, 0⟩
        ⟨[⟨TypeInner.Sampler true, 0⟩], [], []⟩ 0 =
      Except.ok (BindingType.Sampler SamplerBindingType.Comparison) := by
  have h := C5_sampler_classification linearSamplerDirectives ⟨0, 0⟩
    ⟨[⟨TypeInner.Sampler true, 0⟩], [], []⟩ 0 ⟨TypeInner.Sampler true, 0⟩ true
    rfl rfl
  simpa using h

/-! ## C8: storage-buffer read_only flag -/

/-- C8: when a Storage-space global classifies as a storage buffer, the
`read_only` flag is `true` exactly when the declared access is the read bit
alone (read set, write clear); any access including the write bit, and the
neither-bit access, yield `read_only = false`. -/
theorem C8_storage_read_only (access : StorageAccess) (hint : UniformHint)
    (m : Module) (ty : Handle) (ro d : Bool) (mbs : Option Nat)
    (h : infer_storage_binding_type access hint m ty =
      Except.ok (BindingType.Buffer (BufferBindingType.Storage ro) d mbs)) :
    ro = true ↔ (access.load = true ∧ access.store = false) := by
  unfold infer_storage_binding_type at h
  cases him : is_image m ty with
  | error e => rw [him] at h; simp at h
  | ok b =>
    rw [him] at h
    cases b with
    | true =>
      cases hinfo : get_image_information m ty with
      | none => rw [hinfo] at h; simp at h
      | some p => rw [hinfo] at h; simp at h
    | false =>
      simp only [Except.ok.injEq, BindingType.Buffer.injEq,
        BufferBindingType.Storage.injEq] at h
      obtain ⟨rfl, -⟩ := h
      obtain ⟨l, s⟩ := access
      cases l <;> cases s <;> decide

/-- C8, witness: a write-only storage buffer at a concrete module comes out
with `read_only = false`, matching the iff at `access = (false, true)`. -/
theorem C8_storage_read_only_witness :
    (false = true ↔
      ((⟨false, true⟩ : StorageAccess).load = true ∧
        (⟨false, true⟩ : StorageAccess).store = false)) :=
  C8_storage_read_only ⟨false, true⟩ UniformHint.default exModule 0 false false
    none rfl

/-! ## C10: storage buffers consult the uniform hint -/

/-- C10: a Storage-space global that classifies as a storage buffer takes
`has_dynamic_offset` from the uniform hint looked up at its location, and
its `min_binding_size` is computed from the type's byte size exactly when
that hint's `calculate_min_binding_size` flag is set (omitted otherwise). -/
theorem C10_storage_buffer_uses_uniform_hint (dirs : Directives) (m : Module)
    (g : GlobalVariable) (vis : ShaderStages) (access : StorageAccess)
    (b : ResourceBinding) (hspace : g.space = AddressSpace.Storage access)
    (hbind : g.binding = some b) (himg : is_image m g.ty = Except.ok false) :
    GlobalVar.process_global_var dirs m g vis =
      Except.ok (some (GlobalVar.Uniform
        { entry :=
            { binding := b.binding
              visibility := vis
              ty :=
                BindingType.Buffer
                  (BufferBindingType.Storage
                    (decide (access = StorageAccess.LOAD)))
                  ((dirs.get_uniform_hint b).dynamic_offset)
                  (if (dirs.get_uniform_hint b).calculate_min_binding_size then
                    type_size m g.ty
                  else none)
              count := type_array_ct m g.ty }
          binding := b
          name := g.name })) := by
  obtain ⟨gname, gspace, gbinding, gty⟩ := g
  simp only at hspace hbind himg ⊢
  subst hspace
  subst hbind
  unfold GlobalVar.process_global_var
  simp only
  unfold infer_storage_binding_type
  rw [himg]
  unfold GlobalVar.new_uniform
  simp only

/-- C10, witness: a write/read storage buffer at (0,0) under a directive set
whose base patch turns on `dynamic_offset` yields a storage-buffer entry
with `has_dynamic_offset = true` and no `min_binding_size`. -/
theorem C10_storage_buffer_uses_uniform_hint_witness :
    GlobalVar.process_global_var baseOnlyDirectives exModule
        { name := some "s", space := AddressSpace.Storage ⟨true, false⟩
          binding := some ⟨0, 0⟩, ty := 0 } ShaderStages.COMPUTE =
      Except.ok (some (GlobalVar.Uniform
        { entry :=
            { binding := 0
              visibility := ShaderStages.COMPUTE
              ty :=
                BindingType.Buffer (BufferBindingType.Storage true) true none
              count := none }
          binding := ⟨0, 0⟩
          name := some "s" })) := by
  have h := C10_storage_buffer_uses_uniform_hint baseOnlyDirectives exModule
    { name := some "s", space := AddressSpace.Storage ⟨true, false⟩
      binding := some ⟨0, 0⟩, ty := 0 } ShaderStages.COMPUTE ⟨true, false⟩
    ⟨0, 0⟩ rfl rfl rfl
  exact h

/-! ## Shared helper lemmas -/

theorem next_multiple_of_four_dvd (n : Nat) : 4 ∣ next_multiple_of n 4 := by
  unfold next_multiple_of
  split <;> omega

theorem mem_hashInsert {α β : Type} [DecidableEq α] (p : α × β)
    (m : List (α × β)) (k : α) (v : β) :
    p ∈ hashInsert m k v ↔ p = (k, v) ∨ (p ∈ m ∧ p.1 ≠ k) := by
  simp [hashInsert, List.mem_filter]

theorem hashLookup_mem {α β : Type} [DecidableEq α] (m : List (α × β))
    (k : α) (v : β) (h : hashLookup m k = some v) : (k, v) ∈ m := by
  induction m with
  | nil => cases h
  | cons hd tl ih =>
    obtain ⟨k2, v2⟩ := hd
    unfold hashLookup at h
    by_cases hk : k2 = k
    · rw [if_pos hk] at h
      cases h
      subst hk
      exact List.mem_cons_self _ _
    · rw [if_neg hk] at h
      exact List.mem_cons_of_mem _ (ih h)

theorem le_foldl_max (l : List Nat) : ∀ a : Nat, a ≤ l.foldl Nat.max a := by
  induction l with
  | nil => intro a; exact Nat.le_refl a
  | cons x xs ih =>
    intro a
    exact Nat.le_trans (Nat.le_max_left a x) (ih (Nat.max a x))

theorem mem_le_foldl_max (l : List Nat) (x : Nat) (hx : x ∈ l) :
    ∀ a : Nat, x ≤ l.foldl Nat.max a := by
  induction l with
  | nil => cases hx
  | cons y ys ih =>
    intro a
    rcases List.mem_cons.mp hx with rfl | hmem
    · exact Nat.le_trans (Nat.le_max_right a x) (le_foldl_max ys _)
    · exact ih hmem _

theorem foldl_max_le (l : List Nat) (b : Nat) :
    ∀ a : Nat, a ≤ b → (∀ x ∈ l, x ≤ b) → l.foldl Nat.max a ≤ b := by
  induction l with
  | nil => intro a ha _; exact ha
  | cons x xs ih =>
    intro a ha hall
    exact ih (Nat.max a x)
      (Nat.max_le.mpr ⟨ha, hall x (List.mem_cons_self x xs)⟩)
      (fun y hy => hall y (List.mem_cons_of_mem x hy))

theorem foldl_max_choice (l : List Nat) :
    ∀ a : Nat, l.foldl Nat.max a = a ∨ l.foldl Nat.max a ∈ l := by
  induction l with
  | nil => intro a; exact Or.inl rfl
  | cons x xs ih =>
    intro a
    simp only [List.foldl_cons]
    rcases ih (Nat.max a x) with h | h
    · rcases Nat.le_total x a with hm | hm
      · have hmax : Nat.max a x = a := Nat.max_eq_left hm
        rw [hmax] at h ⊢
        exact Or.inl h
      · have hmax : Nat.max a x = x := Nat.max_eq_right hm
        rw [hmax] at h ⊢
        rw [h]
        exact Or.inr (List.mem_cons_self x xs)
    · exact Or.inr (List.mem_cons_of_mem x h)

/-- Unpack a successful `BindGroups::new` into the state produced by the
global-variable loop. -/
theorem new_ok_elim (m : Module) (dirs : Directives) (bg : BindGroups)
    (hnew : BindGroups.new m dirs = Except.ok bg) :
    ∃ st, process_globals dirs m (aggregate_visibility m) m.global_variables
        ⟨[], [], none⟩ = Except.ok st ∧
      bg.entry_map = st.entry_map ∧
      bg.bindings = st.bindings ∧
      bg.push_constant_range = st.push_constant_range ∧
      bg.entry_points = collect_entry_points m := by
  unfold BindGroups.new at hnew
  split at hnew
  · cases hnew
  · split at hnew
    · cases hnew
    · next st hst =>
      refine ⟨st, hst, ?_⟩
      cases hnew
      exact ⟨rfl, rfl, rfl, rfl⟩

/-- What a `GlobalVar::PushConstant` outcome of `process_global_var` must
look like: it only arises for a PushConstant-space global with a resolvable
type, and carries `[0, byte size rounded up to a multiple of 4)` tagged with
the given visibility. -/
theorem process_global_var_push_constant (dirs : Directives) (m : Module)
    (g : GlobalVariable) (vis : ShaderStages) (pc : PushConstantRange)
    (h : GlobalVar.process_global_var dirs m g vis =
      Except.ok (some (GlobalVar.PushConstant pc))) :
    g.space = AddressSpace.PushConstant ∧
      ∃ t, m.get_handle g.ty = some t ∧
        pc = ⟨vis, 0, next_multiple_of t.byte_size 4⟩ := by
  obtain ⟨gname, gspace, gbinding, gty⟩ := g
  unfold GlobalVar.process_global_var at h
  simp only at h ⊢
  cases gspace with
  | Function => simp at h
  | Private => simp at h
  | WorkGroup => simp at h
  | Uniform =>
    cases gbinding with
    | none => simp at h
    | some b => simp [GlobalVar.new_uniform] at h
  | Storage access =>
    cases gbinding with
    | none => simp at h
    | some b =>
      simp only at h
      cases hinf : infer_storage_binding_type access
          (dirs.get_uniform_hint b) m gty with
      | error e => rw [hinf] at h; simp at h
      | ok bt => rw [hinf] at h; simp [GlobalVar.new_uniform] at h
  | Handle =>
    cases gbinding with
    | none => simp at h
    | some b =>
      simp only at h
      cases hinf : infer_handle_binding_type dirs b m gty with
      | error e => rw [hinf] at h; simp at h
      | ok bt => rw [hinf] at h; simp [GlobalVar.new_uniform] at h
  | PushConstant =>
    refine ⟨rfl, ?_⟩
    simp only at h
    unfold push_constant_ranges at h
    cases hget : m.get_handle gty with
    | none => rw [hget] at h; simp at h
    | some t =>
      rw [hget] at h
      refine ⟨t, rfl, ?_⟩
      simp only [Except.ok.injEq, Option.some.injEq,
        GlobalVar.PushConstant.injEq] at h
      exact h.symm

/-- Along the global-variable loop, any recorded push-constant range either
was already recorded or comes from one of the processed globals via
`push_constant_ranges`. -/
theorem process_globals_pc (dirs : Directives) (m : Module)
    (vis : ShaderStages) :
    ∀ (gs : List GlobalVariable) (st st2 : BuildState),
      process_globals dirs m vis gs st = Except.ok st2 →
      ∀ pc, st2.push_constant_range = some pc →
        st.push_constant_range = some pc ∨
          ∃ g ∈ gs, g.space = AddressSpace.PushConstant ∧
            ∃ t, m.get_handle g.ty = some t ∧
              pc = ⟨vis, 0, next_multiple_of t.byte_size 4⟩ := by
  intro gs
  induction gs with
  | nil =>
    intro st st2 h pc hpc
    cases h
    exact Or.inl hpc
  | cons g rest ih =>
    intro st st2 h pc hpc
    unfold process_globals at h
    cases hg : GlobalVar.process_global_var dirs m g vis with
    | error e => rw [hg] at h; cases h
    | ok og =>
      rw [hg] at h
      cases og with
      | none =>
        simp only at h
        rcases ih st st2 h pc hpc with hl | ⟨g2, hg2, hrest⟩
        · exact Or.inl hl
        · exact Or.inr ⟨g2, List.mem_cons_of_mem g hg2, hrest⟩
      | some gv =>
        cases gv with
        | PushConstant pc2 =>
          simp only at h
          rcases ih _ st2 h pc hpc with hl | ⟨g2, hg2, hrest⟩
          · simp only at hl
            cases hl
            obtain ⟨hsp, t, hget, hpc2⟩ := process_global_var_push_constant
              dirs m g vis pc hg
            exact Or.inr ⟨g, List.mem_cons_self g rest, hsp, t, hget, hpc2⟩
          · exact Or.inr ⟨g2, List.mem_cons_of_mem g hg2, hrest⟩
        | Uniform info =>
          simp only at h
          rcases ih _ st2 h pc hpc with hl | ⟨g2, hg2, hrest⟩
          · exact Or.inl hl
          · exact Or.inr ⟨g2, List.mem_cons_of_mem g hg2, hrest⟩

/-! ## C7: push-constant range -/

/-- C7: a push-constant range recorded by a successful build starts at 0,
is tagged with the aggregate visibility mask, and its upper bound is the
declaring global's IR byte size rounded up to the next multiple of 4 — in
particular the upper bound is always a multiple of 4. -/
theorem C7_push_constant_range (m : Module) (dirs : Directives)
    (bg : BindGroups) (pc : PushConstantRange)
    (hnew : BindGroups.new m dirs = Except.ok bg)
    (hpc : bg.push_constant_range = some pc) :
    pc.range_start = 0 ∧ 4 ∣ pc.range_end ∧
      pc.stages = aggregate_visibility m ∧
      ∃ g ∈ m.global_variables, g.space = AddressSpace.PushConstant ∧
        ∃ t, m.get_handle g.ty = some t ∧
          pc.range_end = next_multiple_of t.byte_size 4 := by
  obtain ⟨st, hst, hmap, hbind, hpcr, hep⟩ := new_ok_elim m dirs bg hnew
  rw [hpcr] at hpc
  rcases process_globals_pc dirs m (aggregate_visibility m)
      m.global_variables ⟨[], [], none⟩ st hst pc hpc with hl | hr
  · cases hl
  · obtain ⟨g, hmem, hsp, t, hget, hform⟩ := hr
    subst hform
    exact ⟨rfl, next_multiple_of_four_dvd t.byte_size, rfl,
      g, hmem, hsp, t, hget, rfl⟩

/-- C7, witness at the concrete module `exModule` (push-constant struct of
byte size 8). -/
theorem C7_push_constant_range_witness :
    (ShaderStages.COMPUTE, 0, 8) = (ShaderStages.COMPUTE, 0, 8) ∧
      ((0 : Nat) = 0 ∧ (4 : Nat) ∣ 8 ∧
        ShaderStages.COMPUTE = aggregate_visibility exModule ∧
        ∃ g ∈ exModule.global_variables,
          g.space = AddressSpace.PushConstant ∧
          ∃ t, exModule.get_handle g.ty = some t ∧
            (8 : Nat) = next_multiple_of t.byte_size 4) :=
  ⟨rfl, C7_push_constant_range exModule Directives.default exBG
    ⟨ShaderStages.COMPUTE, 0, 8⟩ exBG_is_built rfl⟩

/-! ## C6: bind_group_count -/

/-- C6: after a successful build, `bind_group_count` is the highest group
index among the registered binding locations — every registered location's
group is bounded by it, some registered location attains it, and it is 0
for an empty table. -/
theorem C6_bind_group_count (m : Module) (dirs : Directives)
    (bg : BindGroups) (hnew : BindGroups.new m dirs = Except.ok bg) :
    (bg.entry_map = [] → bg.bind_group_count = 0) ∧
    (∀ p ∈ bg.entry_map, p.1.group ≤ bg.bind_group_count) ∧
    (bg.entry_map ≠ [] →
      ∃ p ∈ bg.entry_map, p.1.group = bg.bind_group_count) := by
  refine ⟨?_, ?_, ?_⟩
  · intro hmap
    unfold BindGroups.bind_group_count
    rw [hmap]
    rfl
  · intro p hp
    unfold BindGroups.bind_group_count
    exact mem_le_foldl_max (bg.entry_map.map (fun q => q.1.group)) p.1.group
      (List.mem_map.mpr ⟨p, hp, rfl⟩) 0
  · intro hne
    unfold BindGroups.bind_group_count
    rcases foldl_max_choice (bg.entry_map.map (fun p => p.1.group)) 0 with
      hz | hmem
    · obtain ⟨p, hp⟩ := List.exists_mem_of_ne_nil bg.entry_map hne
      refine ⟨p, hp, ?_⟩
      have hle := mem_le_foldl_max (bg.entry_map.map (fun p => p.1.group))
        p.1.group (List.mem_map.mpr ⟨p, hp, rfl⟩) 0
      omega
    · rcases List.mem_map.mp hmem with ⟨p, hp, hgr⟩
      exact ⟨p, hp, hgr⟩

/-- C6, witness: the two-group module `exModule` (bindings in groups 0 and
1) reports `bind_group_count = 1`. -/
theorem C6_bind_group_count_witness :
    ((exBG.entry_map = [] → exBG.bind_group_count = 0) ∧
      (∀ p ∈ exBG.entry_map, p.1.group ≤ exBG.bind_group_count) ∧
      (exBG.entry_map ≠ [] →
        ∃ p ∈ exBG.entry_map, p.1.group = exBG.bind_group_count)) ∧
    exBG.bind_group_count = 1 :=
  ⟨C6_bind_group_count exModule Directives.default exBG exBG_is_built, rfl⟩

/-! ## Table invariant (C4, C9) -/

theorem getD_append_left {α : Type} (l l2 : List α) (i : Nat) (d : α)
    (h : i < l.length) : (l ++ l2).getD i d = l.getD i d := by
  simp [List.getD_eq_getElem?_getD, List.getElem?_append_left h]

theorem getD_set_self {α : Type} (l : List α) (i : Nat) (x d : α)
    (h : i < l.length) : (l.set i x).getD i d = x := by
  simp [List.getD_eq_getElem?_getD, List.getElem?_set_self, h]

theorem getD_set_ne {α : Type} (l : List α) (i j : Nat) (x d : α)
    (h : i ≠ j) : (l.set i x).getD j d = l.getD j d := by
  simp [List.getD_eq_getElem?_getD, List.getElem?_set_ne h]

theorem grow_bindings_le_length (b : List (List BindGroupLayoutEntry))
    (n : Nat) : n ≤ (grow_bindings b n).length := by
  unfold grow_bindings
  split
  · next h =>
    rw [List.length_append, List.length_replicate]
    omega
  · next h => omega

theorem grow_bindings_ge_old (b : List (List BindGroupLayoutEntry))
    (n : Nat) : b.length ≤ (grow_bindings b n).length := by
  unfold grow_bindings
  split
  · rw [List.length_append]
    omega
  · omega

theorem grow_bindings_length_of_lt (b : List (List BindGroupLayoutEntry))
    (n : Nat) (h : b.length < n) : (grow_bindings b n).length = n := by
  unfold grow_bindings
  rw [if_pos h, List.length_append, List.length_replicate]
  omega

theorem grow_bindings_of_ge (b : List (List BindGroupLayoutEntry))
    (n : Nat) (h : ¬b.length < n) : grow_bindings b n = b := by
  unfold grow_bindings
  rw [if_neg h]

theorem grow_bindings_getD (b : List (List BindGroupLayoutEntry)) (n i : Nat)
    (hi : i < b.length) : (grow_bindings b n).getD i [] = b.getD i [] := by
  unfold grow_bindings
  split
  · exact getD_append_left _ _ _ _ hi
  · rfl

/-- The `update_entry_map` preserves the table invariant. -/
theorem update_entry_map_inv (info : BindingInfo)
    (bindings : List (List BindGroupLayoutEntry))
    (map : List (ResourceBinding × EntryMetaData))
    (h : table_inv bindings map) :
    table_inv (update_entry_map info bindings map).1
      (update_entry_map info bindings map).2 := by
  obtain ⟨h1, h2⟩ := h
  have hg : info.binding.group <
      (grow_bindings bindings (info.binding.group + 1)).length :=
    Nat.lt_of_lt_of_le (Nat.lt_succ_self _) (grow_bindings_le_length _ _)
  unfold update_entry_map
  simp only
  constructor
  · intro p hp
    rw [mem_hashInsert] at hp
    rcases hp with rfl | ⟨hpm, hpne⟩
    · refine ⟨rfl, ?_, ?_⟩
      · simp only [List.length_set]
        exact hg
      · rw [getD_set_self _ _ _ _ hg]
        simp only [List.length_append, List.length_cons, List.length_nil]
        omega
    · obtain ⟨e1, e2, e3⟩ := h1 p hpm
      refine ⟨e1, ?_, ?_⟩
      · simp only [List.length_set]
        exact Nat.lt_of_lt_of_le e2 (grow_bindings_ge_old _ _)
      · by_cases hgg : p.1.group = info.binding.group
        · rw [hgg, getD_set_self _ _ _ _ hg]
          have hgetD := grow_bindings_getD bindings (info.binding.group + 1)
            info.binding.group (hgg ▸ e2)
          rw [hgetD]
          rw [hgg] at e3
          simp only [List.length_append, List.length_cons, List.length_nil]
          omega
        · rw [getD_set_ne _ _ _ _ _ (fun hh => hgg hh.symm)]
          rw [grow_bindings_getD _ _ _ e2]
          exact e3
  · by_cases hlt : bindings.length < info.binding.group + 1
    · refine Or.inr ⟨(info.binding,
        { set_idx := info.binding.group
          entry_idx :=
            ((grow_bindings bindings (info.binding.group + 1)).getD
                info.binding.group [] ++ [info.entry]).length - 1
          name := info.name }), ?_, ?_⟩
      · rw [mem_hashInsert]
        exact Or.inl rfl
      · simp only [List.length_set]
        rw [grow_bindings_length_of_lt _ _ hlt]
    · have hne : bindings ≠ [] := by
        intro hnil
        rw [hnil] at hlt
        exact hlt (Nat.succ_pos _)
      rcases h2 with hnil | ⟨p, hpm, hpl⟩
      · exact absurd hnil hne
      · by_cases hpk : p.1 = info.binding
        · refine Or.inr ⟨(info.binding,
            { set_idx := info.binding.group
              entry_idx :=
                ((grow_bindings bindings (info.binding.group + 1)).getD
                    info.binding.group [] ++ [info.entry]).length - 1
              name := info.name }), ?_, ?_⟩
          · rw [mem_hashInsert]
            exact Or.inl rfl
          · simp only [List.length_set]
            rw [grow_bindings_of_ge _ _ hlt, ← hpk]
            exact hpl
        · refine Or.inr ⟨p, ?_, ?_⟩
          · rw [mem_hashInsert]
            exact Or.inr ⟨hpm, hpk⟩
          · simp only [List.length_set]
            rw [grow_bindings_of_ge _ _ hlt]
            exact hpl

/-- The global-variable loop preserves the table invariant. -/
theorem process_globals_inv (dirs : Directives) (m : Module)
    (vis : ShaderStages) :
    ∀ (gs : List GlobalVariable) (st st2 : BuildState),
      process_globals dirs m vis gs st = Except.ok st2 →
      table_inv st.bindings st.entry_map →
      table_inv st2.bindings st2.entry_map := by
  intro gs
  induction gs with
  | nil =>
    intro st st2 h hinv
    cases h
    exact hinv
  | cons g rest ih =>
    intro st st2 h hinv
    unfold process_globals at h
    cases hg : GlobalVar.process_global_var dirs m g vis with
    | error e => rw [hg] at h; cases h
    | ok og =>
      rw [hg] at h
      cases og with
      | none =>
        simp only at h
        exact ih st st2 h hinv
      | some gv =>
        cases gv with
        | PushConstant pc =>
          simp only at h
          exact ih _ st2 h hinv
        | Uniform info =>
          simp only at h
          exact ih _ st2 h (update_entry_map_inv info st.bindings st.entry_map hinv)

/-- A successful build satisfy the table invariant. -/
theorem build_table_inv (m : Module) (dirs : Directives) (bg : BindGroups)
    (hnew : BindGroups.new m dirs = Except.ok bg) :
    table_inv bg.bindings bg.entry_map := by
  obtain ⟨st, hst, hmap, hbind, hpcr, hep⟩ := new_ok_elim m dirs bg hnew
  rw [hmap, hbind]
  exact process_globals_inv dirs m (aggregate_visibility m)
    m.global_variables ⟨[], [], none⟩ st hst ⟨by simp, Or.inl rfl⟩

/-! ## C4: lookup map points at existing entries; dense group vector -/

/-- C4: after a successful build, every location registered in the lookup
map stores a (group index, entry index) pair that points at an existing
entry of the group lists — so `get_bind_group_layout_entry` finds it and
never indexes out of bounds — and the group vector is dense: it is empty
exactly when no location is registered, and otherwise runs from group 0 to
the maximum observed group (`bind_group_count`). -/
theorem C4_entry_map_valid (m : Module) (dirs : Directives) (bg : BindGroups)
    (hnew : BindGroups.new m dirs = Except.ok bg) :
    (∀ set binding md,
      hashLookup bg.entry_map ⟨set, binding⟩ = some md →
      ∃ e, bg.bindings[md.set_idx]? = some ((bg.bindings).getD md.set_idx []) ∧
        ((bg.bindings).getD md.set_idx [])[md.entry_idx]? = some e ∧
        bg.get_bind_group_layout_entry set binding = some e) ∧
    (bg.entry_map = [] → bg.bindings = []) ∧
    (bg.entry_map ≠ [] → bg.bindings.length = bg.bind_group_count + 1) := by
  obtain ⟨hpt, hdense⟩ := build_table_inv m dirs bg hnew
  refine ⟨?_, ?_, ?_⟩
  · intro set binding md hl
    have hmem := hashLookup_mem bg.entry_map ⟨set, binding⟩ md hl
    obtain ⟨e1, e2, e3⟩ := hpt (⟨set, binding⟩, md) hmem
    simp only at e1 e2 e3
    have hsi : md.set_idx < bg.bindings.length := by rw [e1]; exact e2
    have hrow : bg.bindings[md.set_idx]? =
        some ((bg.bindings).getD md.set_idx []) := by
      rw [List.getElem?_eq_getElem hsi, List.getD_eq_getElem _ _ hsi]
    have hei : md.entry_idx < ((bg.bindings).getD md.set_idx []).length := by
      rw [e1]; exact e3
    refine ⟨((bg.bindings).getD md.set_idx [])[md.entry_idx], hrow,
      List.getElem?_eq_getElem hei, ?_⟩
    unfold BindGroups.get_bind_group_layout_entry
    simp only
    rw [hl]
    simp only [Option.bind_eq_bind]
    rw [hrow]
    simp only [Option.some_bind]
    exact List.getElem?_eq_getElem hei
  · intro hmap
    rcases hdense with hnil | ⟨p, hpm, _⟩
    · exact hnil
    · rw [hmap] at hpm
      cases hpm
  · intro hne
    rcases hdense with hnil | ⟨p, hpm, hpl⟩
    · obtain ⟨q, hq⟩ := List.exists_mem_of_ne_nil bg.entry_map hne
      obtain ⟨_, hq2, _⟩ := hpt q hq
      rw [hnil] at hq2
      cases hq2
    · have hub : ∀ x ∈ bg.entry_map.map (fun p => p.1.group),
          x ≤ bg.bindings.length - 1 := by
        intro x hx
        rcases List.mem_map.mp hx with ⟨q, hq, rfl⟩
        have := (hpt q hq).2.1
        omega
      have hfold_le : bg.bind_group_count ≤ bg.bindings.length - 1 :=
        foldl_max_le _ _ 0 (by omega) hub
      have hwit : p.1.group ≤
          (bg.entry_map.map (fun q => q.1.group)).foldl Nat.max 0 :=
        mem_le_foldl_max (bg.entry_map.map (fun q => q.1.group)) p.1.group
          (List.mem_map.mpr ⟨p, hpm, rfl⟩) 0
      unfold BindGroups.bind_group_count at *
      omega

/-- C4, witness at the concrete two-group table `exBG`. -/
theorem C4_entry_map_valid_witness :
    (∀ set binding md,
      hashLookup exBG.entry_map ⟨set, binding⟩ = some md →
      ∃ e, exBG.bindings[md.set_idx]? =
          some ((exBG.bindings).getD md.set_idx []) ∧
        ((exBG.bindings).getD md.set_idx [])[md.entry_idx]? = some e ∧
        exBG.get_bind_group_layout_entry set binding = some e) ∧
    (exBG.entry_map = [] → exBG.bindings = []) ∧
    (exBG.entry_map ≠ [] → exBG.bindings.length = exBG.bind_group_count + 1) :=
  C4_entry_map_valid exModule Directives.default exBG exBG_is_built

/-! ## C9: out-of-range group queries -/

/-- C9: after a successful build, querying the entries of any group index
greater than the highest observed group — or any group index at all when
the table is empty — returns the empty list (never an error). -/
theorem C9_out_of_range_entries (m : Module) (dirs : Directives)
    (bg : BindGroups) (hnew : BindGroups.new m dirs = Except.ok bg) :
    (∀ set, bg.bind_group_count < set →
      bg.get_bind_group_layout_entries set = []) ∧
    (bg.entry_map = [] → ∀ set, bg.get_bind_group_layout_entries set = []) := by
  obtain ⟨hpt, hdense⟩ := build_table_inv m dirs bg hnew
  constructor
  · intro set hgt
    unfold BindGroups.get_bind_group_layout_entries
    rcases hdense with hnil | ⟨p, hpm, hpl⟩
    · rw [hnil]
      simp
    · have hwit : p.1.group ≤
          (bg.entry_map.map (fun q => q.1.group)).foldl Nat.max 0 :=
        mem_le_foldl_max (bg.entry_map.map (fun q => q.1.group)) p.1.group
          (List.mem_map.mpr ⟨p, hpm, rfl⟩) 0
      unfold BindGroups.bind_group_count at hgt
      have hlen : bg.bindings.length ≤ set := by omega
      rw [List.getElem?_eq_none hlen]
      rfl
  · intro hmap set
    unfold BindGroups.get_bind_group_layout_entries
    rcases hdense with hnil | ⟨p, hpm, _⟩
    · rw [hnil]
      simp
    · rw [hmap] at hpm
      cases hpm

/-- C9, witness: querying `exBG` (highest group 1) at group 5 returns the
empty list. -/
theorem C9_out_of_range_entries_witness :
    exBG.get_bind_group_layout_entries 5 = [] :=
  (C9_out_of_range_entries exModule Directives.default exBG
    exBG_is_built).1 5 (by decide)

/-! ## C2: pass construction aggregates every omission -/

theorem collect_push_constants_errors (fill : PassFill Unit)
    (pcFill : ShaderStages → Nat × Nat → Option (List Nat))
    (hfill : ∀ s v r, fill.on_push_const s v r = (s, pcFill v r)) :
    ∀ (ranges : List PushConstantRange) (s : Unit),
      (collect_push_constants fill s ranges).2.2 =
      ranges.filterMap (fun r =>
        match pcFill r.stages (r.range_start, r.range_end) with
        | none => some r.stages
        | some _ => none) := by
  intro ranges
  induction ranges with
  | nil => intro s; rfl
  | cons r rest ih =>
    intro s
    unfold collect_push_constants
    rw [hfill]
    simp only [List.filterMap_cons]
    cases hv : pcFill r.stages (r.range_start, r.range_end) with
    | none => simp [hv, ih]
    | some buf => simp [hv, ih]

theorem collect_offsets_entries_errors (fill : PassFill Unit)
    (offFill : Nat × Nat → Option Nat)
    (hfill : ∀ s l, fill.on_offset s l = (s, offFill l)) (set : Nat) :
    ∀ (entries : List BindGroupLayoutEntry) (s : Unit),
      (collect_offsets_entries fill set s entries).2.2 =
      (entries.filter (fun e => BindingType.has_dynamic_offset e.ty)).filterMap
        (fun e =>
          match offFill (set, e.binding) with
          | none => some (set, e.binding)
          | some _ => none) := by
  intro entries
  induction entries with
  | nil => intro s; rfl
  | cons ent rest ih =>
    intro s
    unfold collect_offsets_entries
    cases hdyn : BindingType.has_dynamic_offset ent.ty with
    | false => simp [hdyn, ih, List.filter_cons]
    | true =>
      rw [hfill]
      simp only [hdyn, if_true, List.filter_cons, List.filterMap_cons]
      cases hv : offFill (set, ent.binding) with
      | none => simp [hv, ih]
      | some offset => simp [hv, ih]

theorem collect_offsets_groups_errors (fill : PassFill Unit)
    (offFill : Nat × Nat → Option Nat)
    (hfill : ∀ s l, fill.on_offset s l = (s, offFill l)) (refl : BindGroups) :
    ∀ (sets : List Nat) (s : Unit),
      (collect_offsets_groups fill refl s sets).2.2 =
      sets.bind (fun set =>
        ((refl.get_bind_group_layout_entries set).filter
          (fun e => BindingType.has_dynamic_offset e.ty)).filterMap
          (fun e =>
            match offFill (set, e.binding) with
            | none => some (set, e.binding)
            | some _ => none)) := by
  intro sets
  induction sets with
  | nil => intro s; rfl
  | cons set sets ih =>
    intro s
    unfold collect_offsets_groups
    simp only [List.cons_bind]
    rw [collect_offsets_entries_errors fill offFill hfill set
      (refl.get_bind_group_layout_entries set) s]
    simp [ih]

/-- C2: when a stateless pass callback leaves any dynamic-offset slot or
any push-constant slot unfilled, `create_pass` still visits every slot and
fails with one single `PassConstruction` error whose first list is exactly
the unresolved dynamic-offset locations across all bound groups (in visit
order) and whose second list is exactly the unresolved push-constant stage
sets — no first-failure short-circuit. -/
theorem C2_pass_construction_aggregates (refl : BindGroups) (n : Nat)
    (pcFill : ShaderStages → Nat × Nat → Option (List Nat))
    (offFill : Nat × Nat → Option Nat)
    (h : unresolved_offsets refl n offFill ≠ [] ∨
      unresolved_push_constants refl pcFill ≠ []) :
    (create_pass refl n (statelessFill pcFill offFill) ()).2 =
      Except.error
        (Error.PassConstruction (unresolved_offsets refl n offFill)
          (unresolved_push_constants refl pcFill)) := by
  unfold create_pass
  simp only
  cases hslice : refl.push_constant_range_slice with
  | none =>
    have hpcnil : unresolved_push_constants refl pcFill = [] := by
      unfold unresolved_push_constants
      rw [hslice]
      rfl
    simp only
    rw [collect_offsets_groups_errors (statelessFill pcFill offFill) offFill
      (fun _ _ => rfl) refl (List.range n) _]
    have hoff : unresolved_offsets refl n offFill =
        (List.range n).bind (fun set =>
          ((refl.get_bind_group_layout_entries set).filter
            (fun e => BindingType.has_dynamic_offset e.ty)).filterMap
            (fun e =>
              match offFill (set, e.binding) with
              | none => some (set, e.binding)
              | some _ => none)) := rfl
    rw [← hoff, hpcnil]
    rcases h with hne | hne
    · cases hoffv : unresolved_offsets refl n offFill with
      | nil => exact absurd hoffv hne
      | cons a l => simp [hoffv]
    · exact absurd hpcnil hne
  | some rs =>
    simp only
    rw [collect_offsets_groups_errors (statelessFill pcFill offFill) offFill
      (fun _ _ => rfl) refl (List.range n) _]
    rw [collect_push_constants_errors (statelessFill pcFill offFill) pcFill
      (fun _ _ _ => rfl) rs _]
    have hoff : unresolved_offsets refl n offFill =
        (List.range n).bind (fun set =>
          ((refl.get_bind_group_layout_entries set).filter
            (fun e => BindingType.has_dynamic_offset e.ty)).filterMap
            (fun e =>
              match offFill (set, e.binding) with
              | none => some (set, e.binding)
              | some _ => none)) := rfl
    have hpc : unresolved_push_constants refl pcFill =
        rs.filterMap (fun r =>
          match pcFill r.stages (r.range_start, r.range_end) with
          | none => some r.stages
          | some _ => none) := by
      unfold unresolved_push_constants
      rw [hslice]
      rfl
    rw [← hoff, ← hpc]
    rcases h with hne | hne
    · cases hoffv : unresolved_offsets refl n offFill with
      | nil => exact absurd hoffv hne
      | cons a l => simp [hoffv]
    · cases hpcv : unresolved_push_constants refl pcFill with
      | nil => exact absurd hpcv hne
      | cons a l =>
        cases hoffv : unresolved_offsets refl n offFill with
        | nil => simp [hoffv, hpcv]
        | cons b l2 => simp [hoffv, hpcv]

/-- C2, witness: omitting fills for two dynamic-offset slots and the
push-constant slot yields one `PassConstruction` error listing both offset
locations and the stage set together. -/
theorem C2_pass_construction_aggregates_witness :
    (create_pass exPassBG 1
        (statelessFill (fun _ _ => none) (fun _ => none)) ()).2 =
      Except.error
        (Error.PassConstruction [(0, 0), (0, 1)] [ShaderStages.COMPUTE]) := by
  have h := C2_pass_construction_aggregates exPassBG 1 (fun _ _ => none)
    (fun _ => none) (Or.inl (by decide))
  exact h

/-! ## C3: bind-group construction fails fast at the first missing entry -/

/-- A slot freshly built by `from_entry` carries the entry's (group,
binding) location and an empty cell. -/
theorem from_entry_loc_cell (set : Nat) (entry : BindGroupLayoutEntry)
    (slot : BindSlot) (h : BindSlot.from_entry set entry = some slot) :
    slot.loc = (set, entry.binding) ∧ slot.cell = none := by
  unfold BindSlot.from_entry at h
  cases hty : entry.ty with
  | Buffer bty d mbs =>
    cases bty with
    | Uniform =>
      rw [hty] at h
      unfold BindSlot.uniform_buf at h
      cases hct : entry.count <;> rw [hct] at h <;> cases h <;> exact ⟨rfl, rfl⟩
    | Storage ro =>
      rw [hty] at h
      unfold BindSlot.storage_buf at h
      cases hct : entry.count <;> rw [hct] at h <;> cases h <;> exact ⟨rfl, rfl⟩
  | Sampler sb =>
    rw [hty] at h
    unfold BindSlot.sampler at h
    cases hct : entry.count <;> rw [hct] at h <;> cases h <;> exact ⟨rfl, rfl⟩
  | Texture st vd ms =>
    rw [hty] at h
    unfold BindSlot.texture at h
    cases hct : entry.count <;> rw [hct] at h <;> cases h <;> exact ⟨rfl, rfl⟩
  | StorageTexture a f vd =>
    rw [hty] at h
    unfold BindSlot.texture at h
    cases hct : entry.count <;> rw [hct] at h <;> cases h <;> exact ⟨rfl, rfl⟩
  | AccelerationStructure =>
    rw [hty] at h
    cases h

/-- Taking an empty slot always yields `MissingBindGroupEntry` at the
slot's own location, whatever its variant. -/
theorem try_into_resource_none (kind : BindSlotKind) (loc : Nat × Nat) :
    BindSlot.try_into_resource ⟨kind, loc, none⟩ =
      Except.error (BindGroupError.MissingBindGroupEntry loc.1 loc.2) := by
  cases kind <;> rfl

/-- Taking a filled slot always succeeds, whatever its variant. -/
theorem try_into_resource_some (kind : BindSlotKind) (loc : Nat × Nat)
    (v : Nat) :
    ∃ r, BindSlot.try_into_resource ⟨kind, loc, some v⟩ = Except.ok r := by
  cases kind <;> exact ⟨_, rfl⟩

theorem run_fill_cons {σ : Type} (func : σ → BindSlot → σ × Option Nat)
    (set : Nat) (s : σ) (p : BindGroupLayoutEntry)
    (l : List BindGroupLayoutEntry) (sl : BindSlot)
    (h : BindSlot.from_entry set p = some sl) :
    run_fill func set s (p :: l) = run_fill func set (func s sl).1 l := by
  simp only [run_fill, h]

/-- The entry loop stops at the first entry whose slot the callback leaves
unfilled: it returns `none` with the callback state frozen right after the
failing slot — the callback is never handed the remaining entries. -/
theorem create_entries_stops_at_missing {σ : Type}
    (func : σ → BindSlot → σ × Option Nat) (set : Nat)
    (e : BindGroupLayoutEntry) (rest : List BindGroupLayoutEntry)
    (slot : BindSlot) (hslot : BindSlot.from_entry set e = some slot) :
    ∀ (pre : List BindGroupLayoutEntry) (s0 : σ),
      (∀ i (hi : i < pre.length), ∃ sl,
        BindSlot.from_entry set (pre.get ⟨i, hi⟩) = some sl ∧
        ((func (run_fill func set s0 (pre.take i)) sl).2).isSome) →
      (func (run_fill func set s0 pre) slot).2 = none →
      create_bind_group_entries func set s0 (pre ++ e :: rest) =
        ((func (run_fill func set s0 pre) slot).1, none) := by
  intro pre
  induction pre with
  | nil =>
    intro s0 hpre hmiss
    simp only [run_fill] at hmiss ⊢
    simp only [List.nil_append]
    unfold create_bind_group_entries
    rw [hslot]
    simp only
    cases hfv : func s0 slot with
    | mk s1 v =>
      rw [hfv] at hmiss
      simp only at hmiss
      subst hmiss
      simp only
      rw [try_into_resource_none slot.kind slot.loc]
  | cons p ps ih =>
    intro s0 hpre hmiss
    obtain ⟨sl0, hsl0, hfill0⟩ := hpre 0 (Nat.succ_pos ps.length)
    simp only [List.get, List.take, run_fill] at hsl0 hfill0
    cases hfv0 : func s0 sl0 with
    | mk s1 v0 =>
      rw [hfv0] at hfill0
      simp only at hfill0
      obtain ⟨y, rfl⟩ := Option.isSome_iff_exists.mp hfill0
      obtain ⟨r, hr⟩ := try_into_resource_some sl0.kind sl0.loc y
      have hrun : run_fill func set s0 (p :: ps) = run_fill func set s1 ps := by
        rw [run_fill_cons func set s0 p ps sl0 hsl0, hfv0]
      have hpre2 : ∀ i (hi : i < ps.length), ∃ sl,
          BindSlot.from_entry set (ps.get ⟨i, hi⟩) = some sl ∧
          ((func (run_fill func set s1 (ps.take i)) sl).2).isSome := by
        intro i hi
        obtain ⟨sl, hsl, hfill⟩ := hpre (i + 1) (Nat.succ_lt_succ hi)
        refine ⟨sl, hsl, ?_⟩
        have htake : run_fill func set s0 ((p :: ps).take (i + 1)) =
            run_fill func set s1 (ps.take i) := by
          simp only [List.take]
          rw [run_fill_cons func set s0 p (ps.take i) sl0 hsl0, hfv0]
        rw [htake] at hfill
        exact hfill
      have hmiss2 : (func (run_fill func set s1 ps) slot).2 = none := by
        rw [← hrun]
        exact hmiss
      have hout := ih s1 hpre2 hmiss2
      simp only [List.cons_append]
      unfold create_bind_group_entries
      rw [hsl0]
      simp only
      rw [hfv0]
      simp only
      rw [hr]
      simp only
      rw [hout]
      simp only
      rw [hrun]

/-- C3: if the caller callback leaves the slot of entry `e` unfilled (after
having filled every slot of the entries `pre` before it), then taking that
slot yields `MissingBindGroupEntry` naming exactly that (group, binding)
location, and the entry loop returns no bind group with the callback state
frozen right after the failing slot — the entries of `rest` after the first
missing one are never visited or converted. -/
theorem C3_missing_entry_fail_fast {σ : Type}
    (func : σ → BindSlot → σ × Option Nat) (s0 : σ) (set : Nat)
    (pre : List BindGroupLayoutEntry) (e : BindGroupLayoutEntry)
    (rest : List BindGroupLayoutEntry) (slot : BindSlot)
    (hpre : ∀ i (hi : i < pre.length), ∃ sl,
      BindSlot.from_entry set (pre.get ⟨i, hi⟩) = some sl ∧
      ((func (run_fill func set s0 (pre.take i)) sl).2).isSome)
    (hslot : BindSlot.from_entry set e = some slot)
    (hmiss : (func (run_fill func set s0 pre) slot).2 = none) :
    BindSlot.try_into_resource { slot with cell := none } =
      Except.error (BindGroupError.MissingBindGroupEntry set e.binding) ∧
    create_bind_group_entries func set s0 (pre ++ e :: rest) =
      ((func (run_fill func set s0 pre) slot).1, none) := by
  constructor
  · obtain ⟨hloc, hcell⟩ := from_entry_loc_cell set e slot hslot
    have h := try_into_resource_none slot.kind (set, e.binding)
    simp only at h
    rw [hloc]
    exact h
  · exact create_entries_stops_at_missing func set e rest slot hslot pre s0
      hpre hmiss

/-- C3, witness: a counting callback that fills only the first slot it is
handed.  Construction over three uniform-buffer entries at group 0 fails at
the second entry — binding 1 — with the callback invoked exactly twice
(final state 2): the third entry is never visited. -/
theorem C3_missing_entry_fail_fast_witness :
    BindSlot.try_into_resource ⟨BindSlotKind.UniformBuffer, (0, 1), none⟩ =
      Except.error (BindGroupError.MissingBindGroupEntry 0 1) ∧
    create_bind_group_entries
        (fun (s : Nat) (_ : BindSlot) =>
          (s + 1, if s = 0 then some 5 else none))
        0 0 [exEntry 0, exEntry 1, exEntry 2] = (2, none) :=
  C3_missing_entry_fail_fast
    (fun (s : Nat) (_ : BindSlot) => (s + 1, if s = 0 then some 5 else none))
    0 0 [exEntry 0] (exEntry 1) [exEntry 2]
    ⟨BindSlotKind.UniformBuffer, (0, 1), none⟩
    (fun i hi =>
      match i, hi with
      | 0, _ => ⟨⟨BindSlotKind.UniformBuffer, (0, 0), none⟩, rfl, rfl⟩)
    rfl rfl

end Kinnara
